import Mathlib

/-!
Verification development for the Kora rent reclaim bot.

The TypeScript sources are shallowly embedded as pure Lean functions:
* timestamps are `Int` milliseconds since the epoch (JS `Date.getTime()`),
  and the floating-point age comparison `ageInDays(t) < minDays` is rendered
  as the exact integer comparison `now - t < minDays * 86400000`;
* the SQLite store is a `Db` structure of lists; SQL `COALESCE` and the
  JavaScript falsy coercions (`x || null`, `x || undefined`, `x || 0`) are
  modelled explicitly;
* the Solana RPC surface is a `Chain` record of response functions, so one
  invocation of a service method observes a fixed remote state;
* error strings thrown or returned by the services are modelled by the
  inductive `ReclaimErr`, one constructor per distinct source message.
-/

namespace KoraBot

/-- Lifecycle status of a tracked account (enum `AccountStatus`,
`status` column values 'active' | 'empty' | 'closed' | 'reclaimed' |
'protected' | 'error'). `protected` is a Lean keyword, hence `protected_`. -/
inductive AccountStatus where
  | active
  | empty
  | closed
  | reclaimed
  | protected_
  | error
deriving DecidableEq

/-- Kind of a tracked account (enum `AccountType`). -/
inductive AccountType where
  | system
  | token
  | token2022
  | ata
  | pda
  | unknown
deriving DecidableEq

/-- A tracked account record (interface `SponsoredAccount` and the
`sponsored_accounts` table). Optional columns are `Option`. -/
structure SponsoredAccount where
  pubkey : String
  type : AccountType
  status : AccountStatus
  lamports : Nat
  rentExemptMinimum : Nat
  owner : String
  creationTxSignature : String
  creationSlot : Nat
  createdAt : Int
  lastCheckedAt : Int
  closedAt : Option Int := none
  reclaimedAt : Option Int := none
  reclaimTxSignature : Option String := none
  reclaimedAmount : Option Nat := none
  errorMessage : Option String := none
  metadata : Option String := none
deriving DecidableEq

/-- Structured rendering of the error strings produced by the reclaim
pipeline, one constructor per distinct message:
* `tooRecent` — "Account too recent (X days < N days)"
* `belowMinimum` — "Below minimum reclaim (a < b)"
* `programNotAllowed o` — "Program not allowed: o"
* `revived` — "Account was revived - not closed"
* `notExist` — "Account does not exist (already closed)" in
  `reclaimTokenAccountRent` and "Account does not exist" in
  `closeSystemAccount`
* `notTokenAccount t` / `notSystemAccount t` — "Not a token/system account"
* `tokenAccountNotFound` — "Token account not found or invalid"
* `noCloseAuthority` — "Operator does not have close authority for this account"
* `notOwner` — "Operator does not own this account"
* `nonZeroTokenBalance n` — "Token account has non-zero balance: n"
* `unsupportedType t` — "Unsupported account type: t"
* `sendFailed m` — message of an error thrown by transaction submission. -/
inductive ReclaimErr where
  | tooRecent
  | belowMinimum
  | programNotAllowed (owner : String)
  | revived
  | notExist
  | notTokenAccount (t : AccountType)
  | notSystemAccount (t : AccountType)
  | tokenAccountNotFound
  | noCloseAuthority
  | notOwner
  | nonZeroTokenBalance (amt : Nat)
  | unsupportedType (t : AccountType)
  | sendFailed (msg : String)
deriving DecidableEq

/-- One row of the append-only `reclaim_history` audit table. -/
structure ReclaimAttempt where
  accountPubkey : String
  txSignature : Option String
  amount : Nat
  success : Bool
  dryRun : Bool
  errorMessage : Option ReclaimErr
  createdAt : Int
deriving DecidableEq

/-- Logical state of the SQLite store: the `sponsored_accounts` table, the
`reclaim_history` table and the `bot_state` key-value table. -/
structure Db where
  accounts : List SponsoredAccount
  reclaimHistory : List ReclaimAttempt
  botState : List (String × String)
deriving DecidableEq

/-- Bot configuration fields used by the embedded services (`BotConfig`);
public keys are kept as their base58 strings. -/
structure BotConfig where
  koraFeePayer : String
  treasuryPubkey : Option String := none
  minAccountAgeDays : Nat
  minReclaimLamports : Nat
  maxBatchSize : Nat
  dryRun : Bool
  allowedPrograms : List String
  blockedPrograms : List String
  txDelayMs : Nat
deriving DecidableEq

/-- JavaScript `x || null` / `x || undefined` on an optional string:
an absent or empty string collapses to `none`. -/
def jsOrNullStr (x : Option String) : Option String :=
  match x with
  | some s => if s = "" then none else some s
  | none => none

/-- JavaScript `x || null` on an optional number: absent or `0` collapses
to `none`. -/
def jsOrNullNat (x : Option Nat) : Option Nat :=
  match x with
  | some n => if n = 0 then none else some n
  | none => none

/-- JavaScript `x || d` on an optional number: absent or `0` yields `d`. -/
def jsOrNat (x : Option Nat) (d : Nat) : Nat :=
  match x with
  | some n => if n = 0 then d else n
  | none => d

/-- SQL `COALESCE(x, y)`. -/
def coalesce {α : Type} (x y : Option α) : Option α :=
  match x with
  | some v => some v
  | none => y

/-- `DatabaseService.getAccount`: `SELECT * FROM sponsored_accounts WHERE
pubkey = ?` (primary-key lookup). -/
def getAccount (db : Db) (pk : String) : Option SponsoredAccount :=
  db.accounts.find? (fun a => a.pubkey == pk)

/-- The `UPDATE` branch of `DatabaseService.upsertAccount` applied to the
existing row `r` with the incoming record `a`: `status`, `lamports`,
`last_checked_at` and `error_message` are overwritten, the four reclaim
columns go through `COALESCE(?, old)` with the JS falsy coercions on the
bound parameters; every other column is left untouched. -/
def applyUpsert (r a : SponsoredAccount) : SponsoredAccount :=
  { r with
    status := a.status
    lamports := a.lamports
    lastCheckedAt := a.lastCheckedAt
    closedAt := coalesce a.closedAt r.closedAt
    reclaimedAt := coalesce a.reclaimedAt r.reclaimedAt
    reclaimTxSignature := coalesce (jsOrNullStr a.reclaimTxSignature) r.reclaimTxSignature
    reclaimedAmount := coalesce (jsOrNullNat a.reclaimedAmount) r.reclaimedAmount
    errorMessage := jsOrNullStr a.errorMessage }

/-- The `INSERT` branch of `upsertAccount`: the row as stored, with the JS
falsy coercions applied to the bound optional parameters. -/
def insertRow (a : SponsoredAccount) : SponsoredAccount :=
  { a with
    reclaimTxSignature := jsOrNullStr a.reclaimTxSignature
    reclaimedAmount := jsOrNullNat a.reclaimedAmount
    errorMessage := jsOrNullStr a.errorMessage }

/-- `DatabaseService.upsertAccount`. -/
def upsertAccount (db : Db) (a : SponsoredAccount) : Db :=
  match getAccount db a.pubkey with
  | some _ =>
      { db with accounts :=
          db.accounts.map (fun x => if x.pubkey == a.pubkey then applyUpsert x a else x) }
  | none => { db with accounts := db.accounts ++ [insertRow a] }

/-- The optional-field argument of `DatabaseService.updateAccountStatus`
(`additionalFields`). -/
structure UpdateFields where
  lamports : Option Nat := none
  closedAt : Option Int := none
  reclaimedAt : Option Int := none
  reclaimTxSignature : Option String := none
  reclaimedAmount : Option Nat := none
  errorMessage : Option String := none
deriving DecidableEq

/-- One row under `DatabaseService.updateAccountStatus`: `status` and
`last_checked_at` are always set; `lamports`, `reclaimed_amount` and
`error_message` are set when passed (`!== undefined`), while `closed_at`,
`reclaimed_at` and `reclaim_tx_signature` are set only when truthy (a
present empty string is ignored). -/
def applyUpdate (r : SponsoredAccount) (status : AccountStatus) (f : UpdateFields)
    (now : Int) : SponsoredAccount :=
  { r with
    status := status
    lastCheckedAt := now
    lamports := f.lamports.getD r.lamports
    closedAt := coalesce f.closedAt r.closedAt
    reclaimedAt := coalesce f.reclaimedAt r.reclaimedAt
    reclaimTxSignature := coalesce (jsOrNullStr f.reclaimTxSignature) r.reclaimTxSignature
    reclaimedAmount := coalesce f.reclaimedAmount r.reclaimedAmount
    errorMessage := coalesce f.errorMessage r.errorMessage }

/-- `DatabaseService.updateAccountStatus` (`UPDATE ... WHERE pubkey = ?`). -/
def updateAccountStatus (db : Db) (pk : String) (status : AccountStatus)
    (f : UpdateFields) (now : Int) : Db :=
  { db with accounts :=
      db.accounts.map (fun x => if x.pubkey == pk then applyUpdate x status f now else x) }

/-- `DatabaseService.recordReclaimAttempt`: append one `reclaim_history` row. -/
def recordReclaimAttempt (db : Db) (pk : String) (sig : Option String) (amount : Nat)
    (success dryRun : Bool) (err : Option ReclaimErr) (now : Int) : Db :=
  { db with reclaimHistory :=
      db.reclaimHistory ++
        [{ accountPubkey := pk, txSignature := sig, amount := amount, success := success,
           dryRun := dryRun, errorMessage := err, createdAt := now }] }

/-- `DatabaseService.markAsReclaimed`: move the row to status `reclaimed`
with reclaim time, signature (`txSignature || undefined`) and amount, then
append a success attempt row with `dryRun = false`. -/
def markAsReclaimed (db : Db) (pk : String) (sig : Option String) (amount : Nat)
    (now : Int) : Db :=
  recordReclaimAttempt
    (updateAccountStatus db pk AccountStatus.reclaimed
      { reclaimedAt := some now, reclaimTxSignature := jsOrNullStr sig,
        reclaimedAmount := some amount } now)
    pk sig amount true false none now

/-- Milliseconds in a day, the factor in `minAgeDays * 24 * 60 * 60 * 1000`. -/
def dayMs : Int := 86400000

/-- `DatabaseService.getReclaimableAccounts`: rows with status 'closed',
`closed_at < now - minAgeDays` days (a NULL `closed_at` never satisfies the
comparison) and `reclaimed_at IS NULL`, ordered by `closed_at` ascending,
limited to `limit` rows. -/
def getReclaimableAccounts (db : Db) (now : Int) (minAgeDays : Nat) (limit : Nat) :
    List SponsoredAccount :=
  let cutoff : Int := now - (minAgeDays : Int) * dayMs
  ((db.accounts.filter (fun a =>
      a.status == AccountStatus.closed &&
      (match a.closedAt with
       | some t => decide (t < cutoff)
       | none => false) &&
      a.reclaimedAt.isNone)).mergeSort
    (fun a b => decide (a.closedAt.getD 0 ≤ b.closedAt.getD 0))).take limit

/-- `DatabaseService.getState`: lookup in the `bot_state` table. -/
def getState (db : Db) (k : String) : Option String :=
  (db.botState.find? (fun p => p.1 == k)).map Prod.snd

/-- `DatabaseService.setState`: `INSERT OR REPLACE INTO bot_state`. -/
def setState (db : Db) (k v : String) : Db :=
  { db with botState :=
      if db.botState.any (fun p => p.1 == k) then
        db.botState.map (fun p => if p.1 == k then (k, v) else p)
      else db.botState ++ [(k, v)] }

/-- `DatabaseService.getLastProcessedSignature`. -/
def getLastProcessedSignature (db : Db) : Option String :=
  getState db "last_processed_signature"

/-- `DatabaseService.setLastProcessedSignature`. -/
def setLastProcessedSignature (db : Db) (s : String) : Db :=
  setState db "last_processed_signature" s

/-- On-chain account info as seen through `connection.getAccountInfo`. -/
structure ChainAccount where
  lamports : Nat
  owner : String
  dataLen : Nat
deriving DecidableEq

/-- SPL token account info as returned by `getAccount` from
`@solana/spl-token`: wallet owner, optional close authority, token amount. -/
structure TokenAccountInfo where
  owner : String
  closeAuthority : Option String
  amount : Nat
deriving DecidableEq

/-- The remote ledger as observed by one cycle: account lookup, the
rent-exemption schedule, SPL token account lookup (`none` models
`TokenAccountNotFoundError`), and the outcome a transaction submission
would have (`sendAndConfirmTransaction` returning a signature or
throwing). -/
structure Chain where
  account : String → Option ChainAccount
  rentExempt : Nat → Nat
  tokenAccount : String → Option TokenAccountInfo
  send : Except String String

/-- `KNOWN_PROGRAMS.SYSTEM`. -/
def systemProgramId : String := "11111111111111111111111111111111"

/-- `KNOWN_PROGRAMS.TOKEN`. -/
def tokenProgramId : String := "TokenkegQfeZyiNwAJbNbGKPFXCWuBvf9Ss623VQ5DA"

/-- `KNOWN_PROGRAMS.TOKEN_2022`. -/
def token2022ProgramId : String := "TokenzQdBNbLqP5VEhdkAS6EPFLC1PHnBqCXEpPxuEb"

/-- `KNOWN_PROGRAMS.ASSOCIATED_TOKEN`. -/
def ataProgramId : String := "ATokenGPvbdGVxr1b2hvZbsiqW5xWH25efTNsLJA8knL"

/-- `SolanaService.detectAccountType`: dispatch on the owner program, with
the PDA heuristic for unrecognized owners of non-empty data. -/
def detectAccountType (a : ChainAccount) : AccountType :=
  if a.owner = systemProgramId then AccountType.system
  else if a.owner = tokenProgramId then AccountType.token
  else if a.owner = token2022ProgramId then AccountType.token2022
  else if a.owner = ataProgramId then AccountType.ata
  else if a.dataLen > 0 then AccountType.pda
  else AccountType.unknown

/-- Result shape of `SolanaService.checkAccountState`. The source field
`exists` is a Lean keyword and is named `present` here. -/
structure AccountState where
  present : Bool
  lamports : Nat
  owner : String
  type : AccountType
  rentExemptMinimum : Nat
deriving DecidableEq

/-- `SolanaService.checkAccountState`: a missing account yields the
all-empty state, an existing one its balance, owner, detected type and
rent-exempt minimum for its data size. -/
def checkAccountState (c : Chain) (pk : String) : AccountState :=
  match c.account pk with
  | none =>
      { present := false, lamports := 0, owner := "", type := AccountType.unknown,
        rentExemptMinimum := 0 }
  | some a =>
      { present := true, lamports := a.lamports, owner := a.owner,
        type := detectAccountType a, rentExemptMinimum := c.rentExempt a.dataLen }

/-- `SolanaService.isProgramAllowed`: with an empty allow-list only the
block-list is consulted; otherwise the program must be allow-listed and not
block-listed. -/
def isProgramAllowed (cfg : BotConfig) (programId : String) : Bool :=
  if cfg.allowedPrograms.length = 0 then
    !(cfg.blockedPrograms.any (fun p => p == programId))
  else
    (cfg.allowedPrograms.any (fun p => p == programId)) &&
    !(cfg.blockedPrograms.any (fun p => p == programId))

/-- Result shape of the two reclaim transaction helpers. -/
structure TxResult where
  success : Bool
  signature : Option String := none
  amount : Option Nat := none
  error : Option ReclaimErr := none
deriving DecidableEq

/-- `SolanaService.reclaimTokenAccountRent`. Returns the result together
with a flag recording whether a transaction submission was attempted. The
model folds the `try`/`catch` into total case analysis: `getAccount` either
succeeds or raises `TokenAccountNotFoundError` (the `tokenAccount` lookup),
and a throwing `sendAndConfirmTransaction` is the `Except.error` branch of
`Chain.send`, caught by the outer handler. -/
def reclaimTokenAccountRent (c : Chain) (operator pk dest programId : String)
    (dryRun : Bool) : TxResult × Bool :=
  let st := checkAccountState c pk
  if !st.present then
    ({ success := false, error := some ReclaimErr.notExist }, false)
  else if !(st.type == AccountType.token || st.type == AccountType.token2022 ||
            st.type == AccountType.ata) then
    ({ success := false, error := some (ReclaimErr.notTokenAccount st.type) }, false)
  else
    match c.tokenAccount pk with
    | none => ({ success := false, error := some ReclaimErr.tokenAccountNotFound }, false)
    | some ta =>
      let hasAuthority :=
        ta.owner == operator ||
        (match ta.closeAuthority with
         | some ca => ca == operator
         | none => false)
      if !hasAuthority then
        ({ success := false, error := some ReclaimErr.noCloseAuthority }, false)
      else if 0 < ta.amount then
        ({ success := false, error := some (ReclaimErr.nonZeroTokenBalance ta.amount) }, false)
      else
        let amount := st.lamports
        if dryRun then
          ({ success := true, amount := some amount }, false)
        else
          match c.send with
          | Except.ok sig =>
              ({ success := true, signature := some sig, amount := some amount }, true)
          | Except.error e =>
              ({ success := false, error := some (ReclaimErr.sendFailed e) }, true)

/-- `SolanaService.closeSystemAccount`. -/
def closeSystemAccount (c : Chain) (operator pk dest : String) (dryRun : Bool) :
    TxResult × Bool :=
  let st := checkAccountState c pk
  if !st.present then
    ({ success := false, error := some ReclaimErr.notExist }, false)
  else if !(st.type == AccountType.system) then
    ({ success := false, error := some (ReclaimErr.notSystemAccount st.type) }, false)
  else if !(st.owner == operator) then
    ({ success := false, error := some ReclaimErr.notOwner }, false)
  else
    let amount := st.lamports
    if dryRun then
      ({ success := true, amount := some amount }, false)
    else
      match c.send with
      | Except.ok sig =>
          ({ success := true, signature := some sig, amount := some amount }, true)
      | Except.error e =>
          ({ success := false, error := some (ReclaimErr.sendFailed e) }, true)

/-- Result shape of one `RentReclaimService.reclaimAccount` call
(interface `ReclaimResult`; the `timestamp` is the cycle's `now`). -/
structure ReclaimResult where
  success : Bool
  account : String
  amount : Nat
  signature : Option String := none
  error : Option ReclaimErr := none
  dryRun : Bool
  timestamp : Int
deriving DecidableEq

/-- Observable calls made by `reclaimAccount` against the remote ledger:
the pre-execution re-check, an invocation of either transaction helper, and
an actual submission inside a helper. -/
inductive ReclaimCall where
  | checkState
  | callReclaimToken
  | callCloseSystem
  | submitTx
deriving DecidableEq

/-- The age guard of `reclaimAccount`: with `closed_at` present, the
floating comparison `ageInDays(closedAt) < minAccountAgeDays` rendered
exactly over integer milliseconds; rows without `closed_at` skip the
check. -/
def ageTooRecent (cfg : BotConfig) (a : SponsoredAccount) (now : Int) : Bool :=
  match a.closedAt with
  | some t => decide (now - t < (cfg.minAccountAgeDays : Int) * dayMs)
  | none => false

/-- The `switch (account.type)` dispatch of `reclaimAccount`, with the
trace of helper invocations and submissions. The surrounding `try`/`catch`
has no throwing path in this total model. -/
def dispatchReclaim (c : Chain) (operator : String) (a : SponsoredAccount)
    (dest : String) (dryRun : Bool) : TxResult × List ReclaimCall :=
  match a.type with
  | AccountType.token =>
      let r := reclaimTokenAccountRent c operator a.pubkey dest tokenProgramId dryRun
      (r.1, ReclaimCall.callReclaimToken :: (if r.2 then [ReclaimCall.submitTx] else []))
  | AccountType.token2022 =>
      let r := reclaimTokenAccountRent c operator a.pubkey dest token2022ProgramId dryRun
      (r.1, ReclaimCall.callReclaimToken :: (if r.2 then [ReclaimCall.submitTx] else []))
  | AccountType.ata =>
      let r := reclaimTokenAccountRent c operator a.pubkey dest tokenProgramId dryRun
      (r.1, ReclaimCall.callReclaimToken :: (if r.2 then [ReclaimCall.submitTx] else []))
  | AccountType.system =>
      let r := closeSystemAccount c operator a.pubkey dest dryRun
      (r.1, ReclaimCall.callCloseSystem :: (if r.2 then [ReclaimCall.submitTx] else []))
  | t => ({ success := false, error := some (ReclaimErr.unsupportedType t) }, [])

/-- `RentReclaimService.reclaimAccount`: the ordered safety pipeline (age,
minimum value, allow-list, revival re-check), the type dispatch, and the
post-execution bookkeeping. Returns the per-account result, the updated
store, and the trace of remote calls. The remote ledger is eventually
consistent and can change between observations, so the chain state is
passed per observation point: `cPre` is the state seen by the engine's
pre-execution re-check, `cExec` the state seen by the invoked transaction
helper; they coincide when the remote state does not change during the
call. -/
def reclaimAccount (cPre cExec : Chain) (cfg : BotConfig) (operator : String) (db : Db)
    (a : SponsoredAccount) (dest : String) (dryRun : Bool) (now : Int) :
    ReclaimResult × Db × List ReclaimCall :=
  if ageTooRecent cfg a now then
    ({ success := false, account := a.pubkey, amount := 0,
       error := some ReclaimErr.tooRecent, dryRun := dryRun, timestamp := now }, db, [])
  else if a.rentExemptMinimum < cfg.minReclaimLamports then
    ({ success := false, account := a.pubkey, amount := 0,
       error := some ReclaimErr.belowMinimum, dryRun := dryRun, timestamp := now }, db, [])
  else if !(isProgramAllowed cfg a.owner) then
    ({ success := false, account := a.pubkey, amount := 0,
       error := some (ReclaimErr.programNotAllowed a.owner), dryRun := dryRun,
       timestamp := now },
     updateAccountStatus db a.pubkey AccountStatus.protected_ {} now, [])
  else
    let st := checkAccountState cPre a.pubkey
    if st.present then
      ({ success := false, account := a.pubkey, amount := 0,
         error := some ReclaimErr.revived, dryRun := dryRun, timestamp := now },
       updateAccountStatus db a.pubkey AccountStatus.active
         { lamports := some st.lamports } now,
       [ReclaimCall.checkState])
    else
      let d := dispatchReclaim cExec operator a dest dryRun
      let r := d.1
      let db' :=
        if r.success then
          if !dryRun then
            markAsReclaimed db a.pubkey (jsOrNullStr r.signature)
              (jsOrNat r.amount a.rentExemptMinimum) now
          else db
        else
          recordReclaimAttempt db a.pubkey none 0 false dryRun r.error now
      ({ success := r.success, account := a.pubkey, amount := jsOrNat r.amount 0,
         signature := r.signature, error := r.error, dryRun := dryRun, timestamp := now },
       db', ReclaimCall.checkState :: d.2)

/-- Observable events of a Gateway operation: a rate-limiter token
acquisition, an RPC network call, a backoff sleep. -/
inductive GEvent where
  | acquire
  | netCall
  | sleep (ms : Nat)
deriving DecidableEq

/-- Options for `withRetry` (interface `RetryOptions`, with the merged
defaults always supplying the retryable list). -/
structure RetryOptions where
  maxAttempts : Nat
  initialDelayMs : Nat
  maxDelayMs : Nat
  backoffMultiplier : Nat
  retryableErrors : List String
deriving DecidableEq

/-- `DEFAULT_RETRY_OPTIONS`. -/
def defaultRetryOptions : RetryOptions :=
  { maxAttempts := 3, initialDelayMs := 1000, maxDelayMs := 30000, backoffMultiplier := 2,
    retryableErrors :=
      ["ECONNRESET", "ETIMEDOUT", "ENOTFOUND", "429", "503", "502", "504",
       "rate limit", "timeout"] }

/-- Does `pat` occur at the head of `s`? (helper for substring search). -/
def subAt : List Char → List Char → Bool
  | [], _ => true
  | _ :: _, [] => false
  | a :: as, b :: bs => a == b && subAt as bs

/-- Does `pat` occur anywhere in `s`? (helper for substring search). -/
def hasSubAux (pat : List Char) : List Char → Bool
  | [] => subAt pat []
  | c :: cs => subAt pat (c :: cs) || hasSubAux pat cs

/-- JavaScript `s.includes(pat)`. -/
def strHasSub (s pat : String) : Bool :=
  hasSubAux pat.data s.data

/-- JavaScript `s.toLowerCase()` (ASCII, characterwise). -/
def toLowerStr (s : String) : String :=
  String.mk (s.data.map Char.toLower)

/-- The retryability test of `withRetry`:
`errorMessage.toLowerCase().includes(e.toLowerCase())` for some retryable
substring `e`. -/
def retryableB (opts : RetryOptions) (msg : String) : Bool :=
  opts.retryableErrors.any (fun p => strHasSub (toLowerStr msg) (toLowerStr p))

/-- The retry loop of `withRetry`. `oracle i` is the outcome of the
`i`-th invocation of `fn` (0-indexed); `fuel` is the number of attempts
still permitted, so the current attempt is the last one exactly when
`fuel = 0` after the pattern split. Returns the final outcome (`none`
models the unreachable `throw lastError` with `maxAttempts = 0`, where
`lastError` is still `undefined`), the number of invocations made, and the
event trace of network calls and backoff sleeps. -/
def withRetryGo {α : Type} (oracle : Nat → Except String α) (opts : RetryOptions) :
    Nat → Nat → Nat → Except (Option String) α × Nat × List GEvent
  | 0, idx, _ => (Except.error none, idx, [])
  | fuel + 1, idx, delay =>
    match oracle idx with
    | Except.ok v => (Except.ok v, idx + 1, [GEvent.netCall])
    | Except.error e =>
      if !(retryableB opts e) || fuel == 0 then
        (Except.error (some e), idx + 1, [GEvent.netCall])
      else
        let rest := withRetryGo oracle opts fuel (idx + 1)
          (min (delay * opts.backoffMultiplier) opts.maxDelayMs)
        (rest.1, rest.2.1, GEvent.netCall :: GEvent.sleep delay :: rest.2.2)

/-- `withRetry` from `src/utils/helpers.ts`. -/
def withRetry {α : Type} (oracle : Nat → Except String α) (opts : RetryOptions) :
    Except (Option String) α × Nat × List GEvent :=
  withRetryGo oracle opts opts.maxAttempts 0 opts.initialDelayMs

/-- The backoff recurrence from a given starting delay: the delay consumed
before retry `k` is the start for `k = 0` and
`min (previous * backoffMultiplier, maxDelayMs)` afterwards. -/
def delayFrom (opts : RetryOptions) (d : Nat) : Nat → Nat
  | 0 => d
  | k + 1 => min (delayFrom opts d k * opts.backoffMultiplier) opts.maxDelayMs

/-- The backoff recurrence of `withRetry`, starting at `initialDelayMs`. -/
def retryDelay (opts : RetryOptions) : Nat → Nat :=
  delayFrom opts opts.initialDelayMs

/-- The sleeps of an event trace, in order. -/
def sleepsOf : List GEvent → List Nat
  | [] => []
  | GEvent.sleep d :: tr => d :: sleepsOf tr
  | _ :: tr => sleepsOf tr

/-- Number of occurrences of an event in a trace. -/
def countEvent (e : GEvent) : List GEvent → Nat
  | [] => 0
  | x :: tr => (if x = e then 1 else 0) + countEvent e tr

/-- `SolanaService.getRentExemptMinimum` as an effect model: one
`rateLimiter.acquire()` and then `withRetry` around the RPC call. This is
the uniform Gateway shape (`acquire` outside the retry wrapper), shared by
every remote method of the service. -/
def getRentExemptMinimum (oracle : Nat → Except String Nat) (opts : RetryOptions) :
    Except (Option String) Nat × Nat × List GEvent :=
  let r := withRetry oracle opts
  (r.1, r.2.1, GEvent.acquire :: r.2.2)

/-- State of the token-bucket `RateLimiter`; tokens are fractional, as in
the source where `elapsed * refillRate` is a float. -/
structure RateLimiter where
  tokens : ℚ
  lastRefill : Int
  maxTokens : ℚ
  refillRate : ℚ

/-- `RateLimiter.refill`: lazy refill from elapsed wall-clock milliseconds,
capped at `maxTokens`. -/
def refill (rl : RateLimiter) (now : Int) : RateLimiter :=
  { rl with
    tokens := min rl.maxTokens (rl.tokens + ((now - rl.lastRefill : Int) : ℚ) / 1000 * rl.refillRate)
    lastRefill := now }

/-- `RateLimiter.acquire` with an idealized sleep: refill, consume one
token when at least one is available, otherwise compute
`Math.ceil((1 - tokens) / refillRate * 1000)` milliseconds, wake at
`now + wait`, refill again and consume. Returns the new state and the
sleep duration, if any. -/
def acquire (rl : RateLimiter) (now : Int) : RateLimiter × Option Int :=
  let r1 := refill rl now
  if 1 ≤ r1.tokens then
    ({ r1 with tokens := r1.tokens - 1 }, none)
  else
    let wait : Int := ⌈(1 - r1.tokens) / r1.refillRate * 1000⌉
    let r2 := refill r1 (now + wait)
    ({ r2 with tokens := r2.tokens - 1 }, some wait)

/-- One entry of the fee payer's signature history, newest first: the
signature listing data (`signature`, `err`) merged with the parsed
transaction detail used by discovery (slot, block time, account keys with
pre/post balances, accounts initialized by inner instructions). The model
treats `getParsedTransaction` as always returning the entry. -/
structure SigEntry where
  signature : String
  err : Bool
  slot : Nat
  blockTime : Option Int
  accountKeys : List (String × Nat × Nat)
  innerInits : List String
deriving DecidableEq

/-- `SolanaService.extractCreatedAccounts`: account keys whose balance went
from zero to positive (excluding the fee payer), then any
`initializeAccount` inner-instruction target not already collected. -/
def extractCreatedAccounts (feePayer : String) (tx : SigEntry) : List String :=
  let fromBalances :=
    (tx.accountKeys.filter
      (fun k => k.2.1 == 0 && decide (0 < k.2.2) && !(k.1 == feePayer))).map Prod.fst
  tx.innerInits.foldl (fun acc a => if a ∈ acc then acc else acc ++ [a]) fromBalances

/-- The suffix of the history strictly older than the `before` cursor
(`getSignaturesForAddress` with `before`); an unknown cursor yields the
empty page, no cursor yields the whole history. -/
def sigsAfter (history : List SigEntry) : Option String → List SigEntry
  | none => history
  | some s => (history.dropWhile (fun e => !(e.signature == s))).drop 1

/-- `SolanaService.scanSponsoredTransactions`: one page of up to `limit`
signatures after the cursor; entries with `err` are skipped from the
returned transactions, and the page's last signature (failed or not)
becomes the next cursor (`null` on an empty page). -/
def scanSponsoredTransactions (history : List SigEntry) (before : Option String)
    (limit : Nat) : List SigEntry × Option String :=
  let page := (sigsAfter history before).take limit
  (page.filter (fun e => !e.err), (page.getLast?).map (fun e => e.signature))

/-- The `SponsoredAccount` built by `discoverNewAccounts` for a newly seen
pubkey: status from the immediate state check, `owner || 'unknown'`,
`blockTime || Math.floor(Date.now() / 1000)` seconds scaled to
milliseconds, and `closed_at = now` when the account no longer exists. -/
def discoveredAccount (c : Chain) (now : Int) (tx : SigEntry) (pk : String) :
    SponsoredAccount :=
  let st := checkAccountState c pk
  { pubkey := pk
    type := st.type
    status := if st.present then AccountStatus.active else AccountStatus.closed
    lamports := st.lamports
    rentExemptMinimum := st.rentExemptMinimum
    owner := if st.owner = "" then "unknown" else st.owner
    creationTxSignature := tx.signature
    creationSlot := tx.slot
    createdAt :=
      (match tx.blockTime with
       | some t => if t = 0 then now / 1000 else t
       | none => now / 1000) * 1000
    lastCheckedAt := now
    closedAt := if st.present then none else some now }

/-- The inner loop of `discoverNewAccounts` over one transaction: each
extracted pubkey is skipped when already tracked (`getAccount` existence
check), otherwise checked and inserted. -/
def processTx (c : Chain) (feePayer : String) (now : Int) (st : Db × Nat)
    (tx : SigEntry) : Db × Nat :=
  (extractCreatedAccounts feePayer tx).foldl
    (fun p pk =>
      match getAccount p.1 pk with
      | some _ => p
      | none => (upsertAccount p.1 (discoveredAccount c now tx pk), p.2 + 1))
    st

/-- One page of transactions processed by `discoverNewAccounts`. -/
def processPage (c : Chain) (feePayer : String) (now : Int) (st : Db × Nat)
    (txs : List SigEntry) : Db × Nat :=
  txs.foldl (processTx c feePayer now) st

/-- The `while (hasMore)` loop of `AccountMonitorService.discoverNewAccounts`:
scan a page; stop when it has no successful transactions (the cursor is not
advanced then); otherwise process it, persist the page's last signature as
the new cursor, and continue. `fuel` bounds the iterations; any
`fuel > |remaining history|` is enough to reach the natural stop. -/
def discoverGo (c : Chain) (feePayer : String) (history : List SigEntry) (now : Int) :
    Nat → Db → Option String → Nat → Db × Nat
  | 0, db, _, count => (db, count)
  | fuel + 1, db, before, count =>
    let sc := scanSponsoredTransactions history before 100
    if sc.1.isEmpty then (db, count)
    else
      let pr := processPage c feePayer now (db, count) sc.1
      match sc.2 with
      | some s =>
          discoverGo c feePayer history now fuel (setLastProcessedSignature pr.1 s)
            (some s) pr.2
      | none => (pr.1, pr.2)

/-- `AccountMonitorService.discoverNewAccounts`: run the scan loop from the
persisted cursor (`getLastProcessedSignature() || undefined`), returning
the updated store and the count of newly inserted accounts. -/
def discoverNewAccounts (c : Chain) (feePayer : String) (history : List SigEntry)
    (now : Int) (db : Db) (fuel : Nat) : Db × Nat :=
  discoverGo c feePayer history now fuel db (jsOrNullStr (getLastProcessedSignature db)) 0

/-! Concrete instances used to witness the theorems below. They realize the
spec's scenario `R1`: rent-exempt minimum 2,039,280 lamports, closed 10
days before the cycle, `minAge = 7` days, `minReclaim = 890,880`, the SPL
token program allow-listed. -/

/-- Scenario configuration (minAge 7 days, minReclaim 890,880, allow-list
containing the token program). -/
def cfgR1 : BotConfig :=
  { koraFeePayer := "FEE", minAccountAgeDays := 7, minReclaimLamports := 890880,
    maxBatchSize := 50, dryRun := true, allowedPrograms := [tokenProgramId],
    blockedPrograms := [], txDelayMs := 2000 }

/-- The cycle time: 10 days (in ms) after the account's close time 0. -/
def nowR1 : Int := 864000000

/-- Scenario account `R1`: a closed SPL token account with balance
2,000,000 and rent-exempt minimum 2,039,280. -/
def accR1 : SponsoredAccount :=
  { pubkey := "R1", type := AccountType.token, status := AccountStatus.closed,
    lamports := 2000000, rentExemptMinimum := 2039280, owner := tokenProgramId,
    creationTxSignature := "CSIG", creationSlot := 5, createdAt := 0,
    lastCheckedAt := 0, closedAt := some 0 }

/-- A store tracking exactly the scenario account. -/
def dbR1 : Db := { accounts := [accR1], reclaimHistory := [], botState := [] }

/-- Remote state where no account exists. -/
def chainGone : Chain :=
  { account := fun _ => none, rentExempt := fun _ => 2039280,
    tokenAccount := fun _ => none, send := Except.ok "TX" }

/-- Remote state where `R1` has been revived with balance 1,500,000. -/
def chainRevived : Chain :=
  { account := fun pk => if pk = "R1" then some ⟨1500000, tokenProgramId, 165⟩ else none,
    rentExempt := fun _ => 2039280, tokenAccount := fun _ => none,
    send := Except.ok "TX" }

/-- Remote state at execution time where `R1` exists with balance
2,039,280 and an empty token account closable by operator "OP". -/
def chainExec : Chain :=
  { account := fun pk => if pk = "R1" then some ⟨2039280, tokenProgramId, 165⟩ else none,
    rentExempt := fun _ => 2039280,
    tokenAccount := fun pk => if pk = "R1" then some ⟨"OP", none, 0⟩ else none,
    send := Except.ok "TXSIG" }

/-- An account closed only 2 days before the cycle (fails the age check);
its owner is additionally not allow-listed, so it would also fail the
authority check if that were reached. -/
def accYoung : SponsoredAccount :=
  { accR1 with
    pubkey := "Y1"
    owner := "SomeOtherProgram1111111111111111"
    closedAt := some (nowR1 - 2 * dayMs) }

/-- A store tracking exactly the young account, with an empty audit table. -/
def dbYoung : Db := { accounts := [accYoung], reclaimHistory := [], botState := [] }

/-- An RPC outcome sequence whose first call fails with a transient
timeout and whose second call succeeds. -/
def oracleTimeout : Nat → Except String Nat :=
  fun n => if n = 0 then Except.error "connection timeout" else Except.ok 2039280

/-- A two-transaction signature history used to witness discovery. -/
def histW : List SigEntry :=
  [{ signature := "S1", err := false, slot := 1, blockTime := some 100,
     accountKeys := [("A", 0, 5)], innerInits := [] },
   { signature := "S2", err := false, slot := 2, blockTime := some 200,
     accountKeys := [("B", 0, 7)], innerInits := [] }]

/-- An empty store. -/
def dbEmpty : Db := { accounts := [], reclaimHistory := [], botState := [] }

/-! Helper lemmas about the store operations. -/

/-- Mapping a conditional rewrite over a list moves through `find?`:
if the predicate is preserved by the rewrite, the first match is the
rewritten first match. -/
theorem find?_map_if {α : Type} (p : α → Bool) (f : α → α)
    (hf : ∀ x, p x = true → p (f x) = true) :
    ∀ (l : List α) (r : α), l.find? p = some r →
      (l.map (fun x => if p x then f x else x)).find? p = some (f r) := by
  intro l
  induction l with
  | nil => intro r h; simp [List.find?] at h
  | cons a l ih =>
    intro r h
    cases hp : p a with
    | false =>
      rw [List.find?_cons, hp] at h
      simpa [List.find?_cons, hp] using ih r h
    | true =>
      rw [List.find?_cons, hp] at h
      cases h
      simp [List.find?_cons, hp, hf a hp]

/-- `updateAccountStatus` rewrites exactly the row with the given key. -/
theorem getAccount_updateAccountStatus (db : Db) (pk : String) (status : AccountStatus)
    (f : UpdateFields) (now : Int) (r : SponsoredAccount)
    (h : getAccount db pk = some r) :
    getAccount (updateAccountStatus db pk status f now) pk =
      some (applyUpdate r status f now) := by
  exact find?_map_if _ _ (fun x hx => by simpa [applyUpdate] using hx) db.accounts r h

/-- `upsertAccount` on a present key rewrites exactly that row. -/
theorem getAccount_upsert_existing (db : Db) (a r : SponsoredAccount)
    (h : getAccount db a.pubkey = some r) :
    getAccount (upsertAccount db a) a.pubkey = some (applyUpsert r a) := by
  unfold upsertAccount
  rw [h]
  exact find?_map_if _ _ (fun x hx => by simpa [applyUpsert] using hx) db.accounts r h

/-- `upsertAccount` never touches the audit table. -/
theorem reclaimHistory_upsertAccount (db : Db) (a : SponsoredAccount) :
    (upsertAccount db a).reclaimHistory = db.reclaimHistory := by
  unfold upsertAccount
  cases getAccount db a.pubkey <;> rfl

/-- `upsertAccount` never touches the `bot_state` table. -/
theorem botState_upsertAccount (db : Db) (a : SponsoredAccount) :
    (upsertAccount db a).botState = db.botState := by
  unfold upsertAccount
  cases getAccount db a.pubkey <;> rfl

/-- C10: for an account already present in the store, `upsertAccount`
modifies only `status`, `lamports`, `last_checked_at`, `error_message` and
the coalesced fields `closed_at`, `reclaimed_at`, `reclaim_tx_signature`
and `reclaimed_amount`; `type`, `owner`, `rent_exempt_minimum`,
`creation_tx_signature`, `creation_slot`, `created_at` and `metadata` are
unchanged, and the coalesced fields keep their stored value whenever the
update passes them as absent (where the JS falsy coercions make an empty
signature or a zero amount count as absent). -/
theorem upsertAccount_existing_frame (db : Db) (a r : SponsoredAccount)
    (h : getAccount db a.pubkey = some r) :
    ∃ u, getAccount (upsertAccount db a) a.pubkey = some u ∧
      u.type = r.type ∧ u.owner = r.owner ∧ u.rentExemptMinimum = r.rentExemptMinimum ∧
      u.creationTxSignature = r.creationTxSignature ∧ u.creationSlot = r.creationSlot ∧
      u.createdAt = r.createdAt ∧ u.metadata = r.metadata ∧
      u.status = a.status ∧ u.lamports = a.lamports ∧
      u.lastCheckedAt = a.lastCheckedAt ∧ u.errorMessage = jsOrNullStr a.errorMessage ∧
      (a.closedAt = none → u.closedAt = r.closedAt) ∧
      (∀ t, a.closedAt = some t → u.closedAt = some t) ∧
      (a.reclaimedAt = none → u.reclaimedAt = r.reclaimedAt) ∧
      (∀ t, a.reclaimedAt = some t → u.reclaimedAt = some t) ∧
      (jsOrNullStr a.reclaimTxSignature = none →
        u.reclaimTxSignature = r.reclaimTxSignature) ∧
      (∀ s, jsOrNullStr a.reclaimTxSignature = some s → u.reclaimTxSignature = some s) ∧
      (jsOrNullNat a.reclaimedAmount = none → u.reclaimedAmount = r.reclaimedAmount) ∧
      (∀ n, jsOrNullNat a.reclaimedAmount = some n → u.reclaimedAmount = some n) ∧
      (upsertAccount db a).reclaimHistory = db.reclaimHistory ∧
      (upsertAccount db a).botState = db.botState := by
  refine ⟨applyUpsert r a, getAccount_upsert_existing db a r h,
    rfl, rfl, rfl, rfl, rfl, rfl, rfl, rfl, rfl, rfl, rfl,
    ?_, ?_, ?_, ?_, ?_, ?_, ?_, ?_,
    reclaimHistory_upsertAccount db a, botState_upsertAccount db a⟩
  · intro hc; simp [applyUpsert, coalesce, hc]
  · intro t ht; simp [applyUpsert, coalesce, ht]
  · intro hc; simp [applyUpsert, coalesce, hc]
  · intro t ht; simp [applyUpsert, coalesce, ht]
  · intro hc; simp [applyUpsert, coalesce, hc]
  · intro s hs; simp [applyUpsert, coalesce, hs]
  · intro hc; simp [applyUpsert, coalesce, hc]
  · intro n hn; simp [applyUpsert, coalesce, hn]

/-- Witness for C10: the frame theorem applied to the scenario store and an
update of the tracked account. -/
theorem upsertAccount_existing_frame_witness :
    ∃ u, getAccount (upsertAccount dbR1 { accR1 with lamports := 7 }) accR1.pubkey = some u ∧
      u.type = accR1.type ∧ u.owner = accR1.owner ∧
      u.rentExemptMinimum = accR1.rentExemptMinimum ∧
      u.creationTxSignature = accR1.creationTxSignature ∧
      u.creationSlot = accR1.creationSlot ∧
      u.createdAt = accR1.createdAt ∧ u.metadata = accR1.metadata ∧
      u.status = accR1.status ∧ u.lamports = 7 ∧
      u.lastCheckedAt = accR1.lastCheckedAt ∧ u.errorMessage = none := by
  obtain ⟨u, h1, h2, h3, h4, h5, h6, h7, h8, h9, h10, h11, h12, -⟩ :=
    upsertAccount_existing_frame dbR1 { accR1 with lamports := 7 } accR1 (by decide)
  exact ⟨u, h1, h2, h3, h4, h5, h6, h7, h8, h9, h10, h11, h12⟩

/-- C4: `getReclaimableAccounts` returns only stored rows with status
'closed', a `closed_at` strictly before `now` minus `minAgeDays` days, and
no `reclaimed_at`; the result is ordered by `closed_at` ascending and
bounded by `limit`; every row younger than `minAgeDays` days is excluded,
for every choice of `minAgeDays` and `limit`. -/
theorem getReclaimableAccounts_spec (db : Db) (now : Int) (minAgeDays limit : Nat) :
    (∀ a ∈ getReclaimableAccounts db now minAgeDays limit,
        a ∈ db.accounts ∧ a.status = AccountStatus.closed ∧ a.reclaimedAt = none ∧
        ∃ t, a.closedAt = some t ∧ t < now - (minAgeDays : Int) * dayMs) ∧
    List.Pairwise (fun a b => a.closedAt.getD 0 ≤ b.closedAt.getD 0)
      (getReclaimableAccounts db now minAgeDays limit) ∧
    (getReclaimableAccounts db now minAgeDays limit).length ≤ limit ∧
    (∀ a ∈ db.accounts,
        (∃ t, a.closedAt = some t ∧ now - t < (minAgeDays : Int) * dayMs) →
        a ∉ getReclaimableAccounts db now minAgeDays limit) := by
  have hmem : ∀ a ∈ getReclaimableAccounts db now minAgeDays limit,
      a ∈ db.accounts ∧ a.status = AccountStatus.closed ∧ a.reclaimedAt = none ∧
      ∃ t, a.closedAt = some t ∧ t < now - (minAgeDays : Int) * dayMs := by
    intro a ha
    unfold getReclaimableAccounts at ha
    have ha2 := List.mem_mergeSort.1 (List.mem_of_mem_take ha)
    have ha3 := List.mem_filter.1 ha2
    refine ⟨ha3.1, ?_⟩
    have hb := ha3.2
    simp only [Bool.and_eq_true, beq_iff_eq, Option.isNone_iff_eq_none] at hb
    obtain ⟨⟨hstat, hclosed⟩, hrecl⟩ := hb
    refine ⟨hstat, hrecl, ?_⟩
    cases hca : a.closedAt with
    | none => rw [hca] at hclosed; simp at hclosed
    | some t =>
        rw [hca] at hclosed
        exact ⟨t, rfl, of_decide_eq_true hclosed⟩
  refine ⟨hmem, ?_, ?_, ?_⟩
  · unfold getReclaimableAccounts
    have hs := @List.sorted_mergeSort SponsoredAccount
      (fun (a b : SponsoredAccount) => decide (a.closedAt.getD 0 ≤ b.closedAt.getD 0))
      (fun a b c hab hbc => by
        simp only [decide_eq_true_iff] at *
        exact le_trans hab hbc)
      (fun a b => by
        simp only [Bool.or_eq_true, decide_eq_true_iff]
        exact le_total _ _)
      (db.accounts.filter (fun a =>
        a.status == AccountStatus.closed &&
        (match a.closedAt with
         | some t => decide (t < now - (minAgeDays : Int) * dayMs)
         | none => false) &&
        a.reclaimedAt.isNone))
    have hp := List.Pairwise.sublist (List.take_sublist limit _) hs
    exact hp.imp (fun h => of_decide_eq_true h)
  · unfold getReclaimableAccounts
    rw [List.length_take]
    exact min_le_left _ _
  · intro a _ ⟨t, ht, hlt⟩ hin
    obtain ⟨-, -, -, t', ht', hlt'⟩ := hmem a hin
    rw [ht] at ht'
    cases ht'
    omega

/-- Witness for C4: the length bound of the eligibility query on the
scenario store. -/
theorem getReclaimableAccounts_spec_witness :
    (getReclaimableAccounts dbR1 nowR1 7 50).length ≤ 50 :=
  (getReclaimableAccounts_spec dbR1 nowR1 7 50).2.2.1

/-- C1: for an eligible account passing the age, minimum-value and
allow-list checks, when the pre-execution re-check observes that the
account exists on-chain, `reclaimAccount` returns a failed result whose
error indicates revival, corrects the stored record back to status
'active' with the newly observed balance, and the trace shows the
re-check as the only remote interaction — neither transaction helper is
invoked and nothing is submitted for that account in that cycle. -/
theorem reclaim_revival_aborts (cPre cExec : Chain) (cfg : BotConfig) (operator : String)
    (db : Db) (a : SponsoredAccount) (dest : String) (dryRun : Bool) (now : Int)
    (r : SponsoredAccount) (ca : ChainAccount)
    (hrec : getAccount db a.pubkey = some r)
    (hage : ageTooRecent cfg a now = false)
    (hmin : ¬a.rentExemptMinimum < cfg.minReclaimLamports)
    (hallow : isProgramAllowed cfg a.owner = true)
    (hchain : cPre.account a.pubkey = some ca) :
    (reclaimAccount cPre cExec cfg operator db a dest dryRun now).1 =
      { success := false, account := a.pubkey, amount := 0,
        error := some ReclaimErr.revived, dryRun := dryRun, timestamp := now } ∧
    getAccount (reclaimAccount cPre cExec cfg operator db a dest dryRun now).2.1 a.pubkey =
      some { r with status := AccountStatus.active, lamports := ca.lamports,
                    lastCheckedAt := now } ∧
    (reclaimAccount cPre cExec cfg operator db a dest dryRun now).2.2 =
      [ReclaimCall.checkState] ∧
    (reclaimAccount cPre cExec cfg operator db a dest dryRun now).2.1.reclaimHistory =
      db.reclaimHistory := by
  have hst : checkAccountState cPre a.pubkey =
      { present := true, lamports := ca.lamports, owner := ca.owner,
        type := detectAccountType ca, rentExemptMinimum := cPre.rentExempt ca.dataLen } := by
    unfold checkAccountState
    rw [hchain]
  have hupd := getAccount_updateAccountStatus db a.pubkey AccountStatus.active
    { lamports := some ca.lamports } now r hrec
  have hcall : reclaimAccount cPre cExec cfg operator db a dest dryRun now =
      ({ success := false, account := a.pubkey, amount := 0,
         error := some ReclaimErr.revived, dryRun := dryRun, timestamp := now },
       updateAccountStatus db a.pubkey AccountStatus.active
         { lamports := some ca.lamports } now,
       [ReclaimCall.checkState]) := by
    simp only [reclaimAccount, hage, hmin, hallow, hst, Bool.false_eq_true, if_false,
      Bool.not_true, ite_false, ite_true]
  rw [hcall]
  refine ⟨rfl, ?_, rfl, rfl⟩
  rw [hupd]
  simp [applyUpdate, coalesce, jsOrNullStr]

/-- Witness for C1: the revival theorem applied to the scenario account
with the revived remote state. -/
theorem reclaim_revival_aborts_witness :
    (reclaimAccount chainRevived chainRevived cfgR1 "OP" dbR1 accR1 "DEST" true nowR1).1 =
      { success := false, account := accR1.pubkey, amount := 0,
        error := some ReclaimErr.revived, dryRun := true, timestamp := nowR1 } ∧
    getAccount
        (reclaimAccount chainRevived chainRevived cfgR1 "OP" dbR1 accR1 "DEST" true nowR1).2.1
        accR1.pubkey =
      some { accR1 with status := AccountStatus.active, lamports := 1500000,
                        lastCheckedAt := nowR1 } ∧
    (reclaimAccount chainRevived chainRevived cfgR1 "OP" dbR1 accR1 "DEST" true nowR1).2.2 =
      [ReclaimCall.checkState] ∧
    (reclaimAccount chainRevived chainRevived cfgR1 "OP" dbR1 accR1 "DEST" true
        nowR1).2.1.reclaimHistory = dbR1.reclaimHistory :=
  reclaim_revival_aborts chainRevived chainRevived cfgR1 "OP" dbR1 accR1 "DEST" true nowR1
    accR1 ⟨1500000, tokenProgramId, 165⟩ (by decide) (by decide) (by decide) (by decide)
    (by decide)

/-- A missing account yields the all-empty `checkAccountState` result. -/
theorem checkAccountState_none (c : Chain) (pk : String) (h : c.account pk = none) :
    checkAccountState c pk =
      { present := false, lamports := 0, owner := "", type := AccountType.unknown,
        rentExemptMinimum := 0 } := by
  unfold checkAccountState
  rw [h]

/-- The JS falsy coercion on optional strings is idempotent. -/
theorem jsOrNullStr_idem (x : Option String) : jsOrNullStr (jsOrNullStr x) = jsOrNullStr x := by
  cases x with
  | none => rfl
  | some s =>
      by_cases hs : s = "" <;> simp [jsOrNullStr, hs]

/-- C3: the safety checks of `reclaimAccount` run in the exact order age
check, minimum-value check, allow-list check, revival re-check, type
dispatch, short-circuiting on the first failure. An account failing the
age check returns a result carrying only the age-check error, with the
store untouched and an empty remote-call trace — it never reaches the
allow-list check, the revival re-check or any remote call, even if the
later checks would also fail. An account passing the age check but below
the minimum value returns only that error, again without store change or
remote call; an account failing the allow-list check is moved to
'protected' and returns only that error, still without remote calls; and
only when all three local checks pass does the revival re-check — the
first remote interaction — take place. -/
theorem reclaim_checks_short_circuit (cPre cExec : Chain) (cfg : BotConfig)
    (operator : String) (db : Db) (a : SponsoredAccount) (dest : String) (dryRun : Bool)
    (now t : Int) :
    (a.closedAt = some t → now - t < (cfg.minAccountAgeDays : Int) * dayMs →
      reclaimAccount cPre cExec cfg operator db a dest dryRun now =
        ({ success := false, account := a.pubkey, amount := 0,
           error := some ReclaimErr.tooRecent, dryRun := dryRun, timestamp := now },
         db, [])) ∧
    (ageTooRecent cfg a now = false → a.rentExemptMinimum < cfg.minReclaimLamports →
      reclaimAccount cPre cExec cfg operator db a dest dryRun now =
        ({ success := false, account := a.pubkey, amount := 0,
           error := some ReclaimErr.belowMinimum, dryRun := dryRun, timestamp := now },
         db, [])) ∧
    (ageTooRecent cfg a now = false → ¬a.rentExemptMinimum < cfg.minReclaimLamports →
      isProgramAllowed cfg a.owner = false →
      reclaimAccount cPre cExec cfg operator db a dest dryRun now =
        ({ success := false, account := a.pubkey, amount := 0,
           error := some (ReclaimErr.programNotAllowed a.owner), dryRun := dryRun,
           timestamp := now },
         updateAccountStatus db a.pubkey AccountStatus.protected_ {} now, [])) ∧
    (ageTooRecent cfg a now = false → ¬a.rentExemptMinimum < cfg.minReclaimLamports →
      isProgramAllowed cfg a.owner = true →
      (reclaimAccount cPre cExec cfg operator db a dest dryRun now).2.2.head? =
        some ReclaimCall.checkState) := by
  refine ⟨?_, ?_, ?_, ?_⟩
  · intro h1 h2
    have hage : ageTooRecent cfg a now = true := by
      unfold ageTooRecent
      rw [h1]
      exact decide_eq_true h2
    simp only [reclaimAccount, hage, ite_true]
  · intro hage hmin
    simp only [reclaimAccount, hage, Bool.false_eq_true, ite_false, hmin, ite_true]
  · intro hage hmin hallow
    simp only [reclaimAccount, hage, Bool.false_eq_true, ite_false, hmin, ite_true,
      hallow, Bool.not_false]
  · intro hage hmin hallow
    simp only [reclaimAccount, hage, Bool.false_eq_true, ite_false, hmin, ite_true,
      hallow, Bool.not_true]
    cases hp : (checkAccountState cPre a.pubkey).present <;> simp [hp]

/-- Witness for C3: the age-failing account (which would also fail the
allow-list check) is rejected with only the age-check error and an empty
trace; an account failing only the allow-list check is moved to
'protected'; the fully passing account reaches the revival re-check. -/
theorem reclaim_checks_short_circuit_witness :
    (reclaimAccount chainGone chainGone cfgR1 "OP" dbYoung accYoung "DEST" true nowR1 =
      ({ success := false, account := accYoung.pubkey, amount := 0,
         error := some ReclaimErr.tooRecent, dryRun := true, timestamp := nowR1 },
       dbYoung, [])) ∧
    (reclaimAccount chainGone chainGone cfgR1 "OP" dbR1
        { accR1 with owner := "Blocked11111111111111111111111111" } "DEST" true nowR1 =
      ({ success := false, account := accR1.pubkey, amount := 0,
         error := some (ReclaimErr.programNotAllowed "Blocked11111111111111111111111111"),
         dryRun := true, timestamp := nowR1 },
       updateAccountStatus dbR1 accR1.pubkey AccountStatus.protected_ {} nowR1, [])) ∧
    ((reclaimAccount chainGone chainGone cfgR1 "OP" dbR1 accR1 "DEST" true nowR1).2.2.head? =
      some ReclaimCall.checkState) :=
  ⟨(reclaim_checks_short_circuit chainGone chainGone cfgR1 "OP" dbYoung accYoung "DEST"
      true nowR1 (nowR1 - 2 * dayMs)).1 (by decide) (by decide),
   (reclaim_checks_short_circuit chainGone chainGone cfgR1 "OP" dbR1
      { accR1 with owner := "Blocked11111111111111111111111111" } "DEST" true nowR1
      0).2.2.1 (by decide) (by decide) (by decide),
   (reclaim_checks_short_circuit chainGone chainGone cfgR1 "OP" dbR1 accR1 "DEST" true
      nowR1 0).2.2.2 (by decide) (by decide) (by decide)⟩

/-- C2 counterexample: in the spec's scenario `R1` (a token account with
rent-exempt minimum 2,039,280 closed 10 days before the cycle, minAge 7,
minReclaim 890,880, allow-listed controller, zero token balance, not
existing on-chain at the pre-execution re-check with the remote state
unchanged through the cycle), the simulate-mode reclaim does not return
success with amount 2,039,280: the execution helper re-checks existence
itself and fails with the not-exist error, and the Ledger Store is not
left untouched — one failed audit row is appended. -/
theorem dry_run_nonexistent_counterexample :
    (reclaimAccount chainGone chainGone cfgR1 "OP" dbR1 accR1 "DEST" true nowR1).1.success
        = false ∧
    (reclaimAccount chainGone chainGone cfgR1 "OP" dbR1 accR1 "DEST" true nowR1).1.error
        = some ReclaimErr.notExist ∧
    (reclaimAccount chainGone chainGone cfgR1 "OP" dbR1 accR1 "DEST"
        true nowR1).2.1.reclaimHistory.length = 1 := by
  decide

/-- C2 (amended): for an eligible token account passing age, minimum-value
and allow-list checks that does not exist on-chain at the pre-execution
re-check and still does not exist when the execution helper runs, the
pipeline does reach the execution step in simulate mode (the token helper
is invoked, nothing is submitted), but the helper's own existence check
fails the reclaim with the not-exist error ("Account does not exist
(already closed)"); the tracked rows are unchanged and exactly one failed
`ReclaimAttempt` audit row is appended. -/
theorem dry_run_nonexistent_reaches_execution (cPre cExec : Chain) (cfg : BotConfig)
    (operator : String) (db : Db) (a : SponsoredAccount) (dest : String) (now : Int)
    (htype : a.type = AccountType.token)
    (hage : ageTooRecent cfg a now = false)
    (hmin : ¬a.rentExemptMinimum < cfg.minReclaimLamports)
    (hallow : isProgramAllowed cfg a.owner = true)
    (hpre : cPre.account a.pubkey = none)
    (hexec : cExec.account a.pubkey = none) :
    (reclaimAccount cPre cExec cfg operator db a dest true now).2.2 =
      [ReclaimCall.checkState, ReclaimCall.callReclaimToken] ∧
    (reclaimAccount cPre cExec cfg operator db a dest true now).1.success = false ∧
    (reclaimAccount cPre cExec cfg operator db a dest true now).1.error =
      some ReclaimErr.notExist ∧
    (reclaimAccount cPre cExec cfg operator db a dest true now).2.1.accounts =
      db.accounts ∧
    (reclaimAccount cPre cExec cfg operator db a dest true now).2.1.reclaimHistory =
      db.reclaimHistory ++
        [{ accountPubkey := a.pubkey, txSignature := none, amount := 0, success := false,
           dryRun := true, errorMessage := some ReclaimErr.notExist, createdAt := now }] := by
  have hdisp : dispatchReclaim cExec operator a dest true =
      ({ success := false, error := some ReclaimErr.notExist },
       [ReclaimCall.callReclaimToken]) := by
    simp only [dispatchReclaim, htype, reclaimTokenAccountRent,
      checkAccountState_none cExec a.pubkey hexec]
    simp
  have hcall : reclaimAccount cPre cExec cfg operator db a dest true now =
      ({ success := false, account := a.pubkey, amount := 0, signature := none,
         error := some ReclaimErr.notExist, dryRun := true, timestamp := now },
       recordReclaimAttempt db a.pubkey none 0 false true (some ReclaimErr.notExist) now,
       [ReclaimCall.checkState, ReclaimCall.callReclaimToken]) := by
    simp only [reclaimAccount, hage, Bool.false_eq_true, ite_false, hmin, ite_true,
      hallow, Bool.not_true, checkAccountState_none cPre a.pubkey hpre, hdisp]
    simp [jsOrNat]
  rw [hcall]
  exact ⟨rfl, rfl, rfl, rfl, rfl⟩

/-- Witness for C2's amended theorem: the scenario instance. -/
theorem dry_run_nonexistent_reaches_execution_witness :
    (reclaimAccount chainGone chainGone cfgR1 "OP" dbR1 accR1 "DEST" true nowR1).2.2 =
      [ReclaimCall.checkState, ReclaimCall.callReclaimToken] ∧
    (reclaimAccount chainGone chainGone cfgR1 "OP" dbR1 accR1 "DEST" true nowR1).1.success
        = false ∧
    (reclaimAccount chainGone chainGone cfgR1 "OP" dbR1 accR1 "DEST" true nowR1).1.error =
      some ReclaimErr.notExist ∧
    (reclaimAccount chainGone chainGone cfgR1 "OP" dbR1 accR1 "DEST" true
        nowR1).2.1.accounts = dbR1.accounts ∧
    (reclaimAccount chainGone chainGone cfgR1 "OP" dbR1 accR1 "DEST" true
        nowR1).2.1.reclaimHistory =
      dbR1.reclaimHistory ++
        [{ accountPubkey := accR1.pubkey, txSignature := none, amount := 0,
           success := false, dryRun := true, errorMessage := some ReclaimErr.notExist,
           createdAt := nowR1 }] :=
  dry_run_nonexistent_reaches_execution chainGone chainGone cfgR1 "OP" dbR1 accR1 "DEST"
    nowR1 (by decide) (by decide) (by decide) (by decide) (by decide) (by decide)

/-- C5 counterexample: an account rejected at the age check produces a
failed result but NO `ReclaimAttempt` audit row is appended — the early
safety rejections return before `recordReclaimAttempt`, so "exactly one
audit record per rejection" fails at this input. -/
theorem rejected_account_no_audit_row_counterexample :
    (reclaimAccount chainGone chainGone cfgR1 "OP" dbYoung accYoung "DEST" true
        nowR1).1.success = false ∧
    (reclaimAccount chainGone chainGone cfgR1 "OP" dbYoung accYoung "DEST" true
        nowR1).1.error = some ReclaimErr.tooRecent ∧
    (reclaimAccount chainGone chainGone cfgR1 "OP" dbYoung accYoung "DEST" true
        nowR1).2.1.reclaimHistory = [] := by
  decide

/-- C5 (amended): rejections at the age, minimum-value, allow-list and
revival checks append no audit row; apart from the allow-list rejection
moving the record to 'protected' and the revival rejection moving it back
to 'active' (with the observed balance), no lifecycle transition occurs on
a rejection. A failure at the type-dispatch/execution stage appends
exactly one failed `ReclaimAttempt` row carrying the error detail and the
dry-run flag, with the tracked rows untouched (the record stays
'closed'). On a non-simulated success the record moves to 'reclaimed'
with reclaim time, transaction reference and amount, and one success
`ReclaimAttempt` row is appended; a simulated success leaves the store
untouched. -/
theorem reclaim_audit_and_lifecycle (cPre cExec : Chain) (cfg : BotConfig)
    (operator : String) (db : Db) (a : SponsoredAccount) (dest : String) (dryRun : Bool)
    (now : Int) (ca : ChainAccount) (r : SponsoredAccount) :
    (ageTooRecent cfg a now = true →
      (reclaimAccount cPre cExec cfg operator db a dest dryRun now).2.1 = db) ∧
    (ageTooRecent cfg a now = false → a.rentExemptMinimum < cfg.minReclaimLamports →
      (reclaimAccount cPre cExec cfg operator db a dest dryRun now).2.1 = db) ∧
    (ageTooRecent cfg a now = false → ¬a.rentExemptMinimum < cfg.minReclaimLamports →
      isProgramAllowed cfg a.owner = false →
      (reclaimAccount cPre cExec cfg operator db a dest dryRun now).2.1.reclaimHistory =
        db.reclaimHistory ∧
      (reclaimAccount cPre cExec cfg operator db a dest dryRun now).2.1 =
        updateAccountStatus db a.pubkey AccountStatus.protected_ {} now) ∧
    (ageTooRecent cfg a now = false → ¬a.rentExemptMinimum < cfg.minReclaimLamports →
      isProgramAllowed cfg a.owner = true → cPre.account a.pubkey = some ca →
      (reclaimAccount cPre cExec cfg operator db a dest dryRun now).2.1.reclaimHistory =
        db.reclaimHistory ∧
      (reclaimAccount cPre cExec cfg operator db a dest dryRun now).2.1 =
        updateAccountStatus db a.pubkey AccountStatus.active
          { lamports := some ca.lamports } now) ∧
    (ageTooRecent cfg a now = false → ¬a.rentExemptMinimum < cfg.minReclaimLamports →
      isProgramAllowed cfg a.owner = true → cPre.account a.pubkey = none →
      (dispatchReclaim cExec operator a dest dryRun).1.success = false →
      (reclaimAccount cPre cExec cfg operator db a dest dryRun now).2.1.accounts =
        db.accounts ∧
      (reclaimAccount cPre cExec cfg operator db a dest dryRun now).2.1.reclaimHistory =
        db.reclaimHistory ++
          [{ accountPubkey := a.pubkey, txSignature := none, amount := 0, success := false,
             dryRun := dryRun,
             errorMessage := (dispatchReclaim cExec operator a dest dryRun).1.error,
             createdAt := now }]) ∧
    (ageTooRecent cfg a now = false → ¬a.rentExemptMinimum < cfg.minReclaimLamports →
      isProgramAllowed cfg a.owner = true → cPre.account a.pubkey = none →
      (dispatchReclaim cExec operator a dest dryRun).1.success = true → dryRun = false →
      (reclaimAccount cPre cExec cfg operator db a dest dryRun now).2.1 =
        markAsReclaimed db a.pubkey
          (jsOrNullStr (dispatchReclaim cExec operator a dest dryRun).1.signature)
          (jsOrNat (dispatchReclaim cExec operator a dest dryRun).1.amount
            a.rentExemptMinimum) now ∧
      (reclaimAccount cPre cExec cfg operator db a dest dryRun now).2.1.reclaimHistory =
        db.reclaimHistory ++
          [{ accountPubkey := a.pubkey,
             txSignature :=
               jsOrNullStr (dispatchReclaim cExec operator a dest dryRun).1.signature,
             amount := jsOrNat (dispatchReclaim cExec operator a dest dryRun).1.amount
               a.rentExemptMinimum,
             success := true, dryRun := false, errorMessage := none, createdAt := now }] ∧
      (getAccount db a.pubkey = some r →
        getAccount (reclaimAccount cPre cExec cfg operator db a dest dryRun now).2.1
            a.pubkey =
          some { r with
                 status := AccountStatus.reclaimed
                 lastCheckedAt := now
                 reclaimedAt := some now
                 reclaimTxSignature :=
                   coalesce
                     (jsOrNullStr (dispatchReclaim cExec operator a dest dryRun).1.signature)
                     r.reclaimTxSignature
                 reclaimedAmount :=
                   some (jsOrNat (dispatchReclaim cExec operator a dest dryRun).1.amount
                     a.rentExemptMinimum) })) ∧
    (ageTooRecent cfg a now = false → ¬a.rentExemptMinimum < cfg.minReclaimLamports →
      isProgramAllowed cfg a.owner = true → cPre.account a.pubkey = none →
      (dispatchReclaim cExec operator a dest dryRun).1.success = true → dryRun = true →
      (reclaimAccount cPre cExec cfg operator db a dest dryRun now).2.1 = db) := by
  refine ⟨?_, ?_, ?_, ?_, ?_, ?_, ?_⟩
  · intro hage
    simp only [reclaimAccount, hage, ite_true]
  · intro hage hmin
    simp only [reclaimAccount, hage, Bool.false_eq_true, ite_false, hmin, ite_true]
  · intro hage hmin hallow
    simp only [reclaimAccount, hage, Bool.false_eq_true, ite_false, hmin, ite_true,
      hallow, Bool.not_false]
    refine ⟨?_, ?_⟩ <;> trivial
  · intro hage hmin hallow hchain
    have hst : checkAccountState cPre a.pubkey =
        { present := true, lamports := ca.lamports, owner := ca.owner,
          type := detectAccountType ca, rentExemptMinimum := cPre.rentExempt ca.dataLen } := by
      unfold checkAccountState
      rw [hchain]
    simp only [reclaimAccount, hage, Bool.false_eq_true, ite_false, hmin, ite_true,
      hallow, Bool.not_true, hst]
    refine ⟨?_, ?_⟩ <;> trivial
  · intro hage hmin hallow hchain hfail
    simp only [reclaimAccount, hage, Bool.false_eq_true, ite_false, hmin, ite_true,
      hallow, Bool.not_true, checkAccountState_none cPre a.pubkey hchain, hfail]
    refine ⟨?_, ?_⟩ <;> trivial
  · intro hage hmin hallow hchain hsucc hdr
    subst hdr
    have hcall : (reclaimAccount cPre cExec cfg operator db a dest false now).2.1 =
        markAsReclaimed db a.pubkey
          (jsOrNullStr (dispatchReclaim cExec operator a dest false).1.signature)
          (jsOrNat (dispatchReclaim cExec operator a dest false).1.amount
            a.rentExemptMinimum) now := by
      simp only [reclaimAccount, hage, Bool.false_eq_true, ite_false, hmin, ite_true,
        hallow, Bool.not_true, checkAccountState_none cPre a.pubkey hchain, hsucc,
        Bool.not_false]
    refine ⟨hcall, ?_, ?_⟩
    · rw [hcall]
      rfl
    · intro hrec
      rw [hcall]
      have hga : getAccount
          (markAsReclaimed db a.pubkey
            (jsOrNullStr (dispatchReclaim cExec operator a dest false).1.signature)
            (jsOrNat (dispatchReclaim cExec operator a dest false).1.amount
              a.rentExemptMinimum) now) a.pubkey =
          getAccount (updateAccountStatus db a.pubkey AccountStatus.reclaimed
            { reclaimedAt := some now,
              reclaimTxSignature :=
                jsOrNullStr
                  (jsOrNullStr (dispatchReclaim cExec operator a dest false).1.signature),
              reclaimedAmount :=
                some (jsOrNat (dispatchReclaim cExec operator a dest false).1.amount
                  a.rentExemptMinimum) } now) a.pubkey := rfl
      rw [hga, getAccount_updateAccountStatus db a.pubkey AccountStatus.reclaimed _ now r hrec]
      simp [applyUpdate, coalesce, jsOrNullStr_idem]
  · intro hage hmin hallow hchain hsucc hdr
    subst hdr
    simp only [reclaimAccount, hage, Bool.false_eq_true, ite_false, hmin, ite_true,
      hallow, Bool.not_true, checkAccountState_none cPre a.pubkey hchain, hsucc,
      Bool.not_true, ite_false]

/-- Witness for C5's amended theorem: the age rejection leaves the store
untouched; the execution failure of the scenario account appends exactly
one failed row; the live success against the revived-at-execution remote
state moves the record to 'reclaimed'. -/
theorem reclaim_audit_and_lifecycle_witness :
    ((reclaimAccount chainGone chainGone cfgR1 "OP" dbYoung accYoung "DEST" true
        nowR1).2.1 = dbYoung) ∧
    ((reclaimAccount chainGone chainGone cfgR1 "OP" dbR1 accR1 "DEST" true
        nowR1).2.1.reclaimHistory =
      dbR1.reclaimHistory ++
        [{ accountPubkey := accR1.pubkey, txSignature := none, amount := 0,
           success := false, dryRun := true,
           errorMessage := (dispatchReclaim chainGone "OP" accR1 "DEST" true).1.error,
           createdAt := nowR1 }]) ∧
    ((reclaimAccount chainGone chainExec cfgR1 "OP" dbR1 accR1 "DEST" false nowR1).2.1 =
      markAsReclaimed dbR1 accR1.pubkey
        (jsOrNullStr (dispatchReclaim chainExec "OP" accR1 "DEST" false).1.signature)
        (jsOrNat (dispatchReclaim chainExec "OP" accR1 "DEST" false).1.amount
          accR1.rentExemptMinimum) nowR1) :=
  ⟨(reclaim_audit_and_lifecycle chainGone chainGone cfgR1 "OP" dbYoung accYoung "DEST"
      true nowR1 ⟨0, "", 0⟩ accYoung).1 (by decide),
   ((reclaim_audit_and_lifecycle chainGone chainGone cfgR1 "OP" dbR1 accR1 "DEST" true
      nowR1 ⟨0, "", 0⟩ accR1).2.2.2.2.1 (by decide) (by decide) (by decide) (by decide)
      (by decide)).2,
   ((reclaim_audit_and_lifecycle chainGone chainExec cfgR1 "OP" dbR1 accR1 "DEST" false
      nowR1 ⟨0, "", 0⟩ accR1).2.2.2.2.2.1 (by decide) (by decide) (by decide) (by decide)
      (by decide) rfl).1⟩

/-! Lemmas about the retry loop. -/

/-- Restarting the backoff recurrence one step later. -/
theorem delayFrom_shift (opts : RetryOptions) (d : Nat) :
    ∀ k, delayFrom opts d (k + 1) =
      delayFrom opts (min (d * opts.backoffMultiplier) opts.maxDelayMs) k := by
  intro k
  induction k with
  | zero => rfl
  | succ k ih =>
      show min (delayFrom opts d (k + 1) * opts.backoffMultiplier) opts.maxDelayMs = _
      rw [ih]
      rfl

/-- Mapping the backoff recurrence over `range (k+1)` peels off the
starting delay. -/
theorem range_map_delayFrom (opts : RetryOptions) (k d : Nat) :
    (List.range (k + 1)).map (delayFrom opts d) =
      d :: (List.range k).map
        (delayFrom opts (min (d * opts.backoffMultiplier) opts.maxDelayMs)) := by
  rw [List.range_succ_eq_map, List.map_cons, List.map_map]
  refine congrArg (List.cons d) ?_
  apply List.map_congr_left
  intro i _
  exact delayFrom_shift opts d i

/-- The retry loop never acquires a rate-limiter token: its trace holds
only network calls and sleeps. -/
theorem withRetryGo_no_acquire {α : Type} (oracle : Nat → Except String α)
    (opts : RetryOptions) :
    ∀ (fuel idx delay : Nat),
      countEvent GEvent.acquire (withRetryGo oracle opts fuel idx delay).2.2 = 0 := by
  intro fuel
  induction fuel with
  | zero => intro idx delay; rfl
  | succ fuel ih =>
      intro idx delay
      cases h : oracle idx with
      | ok v => simp [withRetryGo, h, countEvent]
      | error e =>
          by_cases hc : (!(retryableB opts e) || fuel == 0) = true
          · simp [withRetryGo, h, hc, countEvent]
          · simp only [withRetryGo, h, hc, Bool.false_eq_true, ite_false]
            simp [countEvent, ih]

/-- Leading retryable failures followed by a success: the loop returns the
success, makes exactly `k + 1` calls, and the sleeps follow the backoff
recurrence from the starting delay. -/
theorem withRetryGo_ok {α : Type} (oracle : Nat → Except String α) (opts : RetryOptions)
    (v : α) :
    ∀ (k fuel idx delay : Nat),
      (∀ j, j < k → ∃ m, oracle (idx + j) = Except.error m ∧ retryableB opts m = true) →
      k < fuel → oracle (idx + k) = Except.ok v →
      (withRetryGo oracle opts fuel idx delay).1 = Except.ok v ∧
      (withRetryGo oracle opts fuel idx delay).2.1 = idx + k + 1 ∧
      sleepsOf (withRetryGo oracle opts fuel idx delay).2.2 =
        (List.range k).map (delayFrom opts delay) := by
  intro k
  induction k with
  | zero =>
      intro fuel idx delay _ hfuel hk
      obtain ⟨fuel, rfl⟩ : ∃ f, fuel = f + 1 := ⟨fuel - 1, by omega⟩
      rw [Nat.add_zero] at hk
      simp [withRetryGo, hk, sleepsOf]
  | succ k ih =>
      intro fuel idx delay hfail hfuel hk
      obtain ⟨fuel, rfl⟩ : ∃ f, fuel = f + 1 := ⟨fuel - 1, by omega⟩
      obtain ⟨m, hm, hmr⟩ := hfail 0 (Nat.succ_pos k)
      rw [Nat.add_zero] at hm
      have hcond : (!(retryableB opts m) || fuel == 0) = false := by
        have : fuel ≠ 0 := by omega
        simp [hmr, this]
      have ih' := ih fuel (idx + 1) (min (delay * opts.backoffMultiplier) opts.maxDelayMs)
        (fun j hj => by
          have := hfail (j + 1) (by omega)
          rwa [show idx + (j + 1) = idx + 1 + j by omega] at this)
        (by omega)
        (by rwa [show idx + 1 + k = idx + (k + 1) by omega])
      simp only [withRetryGo, hm, hcond, Bool.false_eq_true, ite_false]
      refine ⟨ih'.1, by rw [ih'.2.1]; omega, ?_⟩
      show sleepsOf (GEvent.netCall :: GEvent.sleep delay :: _) = _
      rw [range_map_delayFrom]
      simp [sleepsOf, ih'.2.2]

/-- Leading retryable failures followed by a terminal failure (either not
retryable, or the final permitted attempt): the loop re-raises that last
error after exactly `k + 1` calls. -/
theorem withRetryGo_fail {α : Type} (oracle : Nat → Except String α) (opts : RetryOptions)
    (e : String) :
    ∀ (k fuel idx delay : Nat),
      (∀ j, j < k → ∃ m, oracle (idx + j) = Except.error m ∧ retryableB opts m = true) →
      k < fuel → oracle (idx + k) = Except.error e →
      (retryableB opts e = false ∨ fuel = k + 1) →
      (withRetryGo oracle opts fuel idx delay).1 = Except.error (some e) ∧
      (withRetryGo oracle opts fuel idx delay).2.1 = idx + k + 1 ∧
      sleepsOf (withRetryGo oracle opts fuel idx delay).2.2 =
        (List.range k).map (delayFrom opts delay) := by
  intro k
  induction k with
  | zero =>
      intro fuel idx delay _ hfuel hk hor
      obtain ⟨fuel, rfl⟩ : ∃ f, fuel = f + 1 := ⟨fuel - 1, by omega⟩
      rw [Nat.add_zero] at hk
      have hcond : (!(retryableB opts e) || fuel == 0) = true := by
        rcases hor with h | h
        · simp [h]
        · have : fuel = 0 := by omega
          simp [this]
      simp [withRetryGo, hk, hcond, sleepsOf]
  | succ k ih =>
      intro fuel idx delay hfail hfuel hk hor
      obtain ⟨fuel, rfl⟩ : ∃ f, fuel = f + 1 := ⟨fuel - 1, by omega⟩
      obtain ⟨m, hm, hmr⟩ := hfail 0 (Nat.succ_pos k)
      rw [Nat.add_zero] at hm
      have hcond : (!(retryableB opts m) || fuel == 0) = false := by
        have : fuel ≠ 0 := by omega
        simp [hmr, this]
      have ih' := ih fuel (idx + 1) (min (delay * opts.backoffMultiplier) opts.maxDelayMs)
        (fun j hj => by
          have := hfail (j + 1) (by omega)
          rwa [show idx + (j + 1) = idx + 1 + j by omega] at this)
        (by omega)
        (by rwa [show idx + 1 + k = idx + (k + 1) by omega])
        (by rcases hor with h | h
            · exact Or.inl h
            · exact Or.inr (by omega))
      simp only [withRetryGo, hm, hcond, Bool.false_eq_true, ite_false]
      refine ⟨ih'.1, by rw [ih'.2.1]; omega, ?_⟩
      show sleepsOf (GEvent.netCall :: GEvent.sleep delay :: _) = _
      rw [range_map_delayFrom]
      simp [sleepsOf, ih'.2.2]

/-- C7: `withRetry` returns the function's value on the first successful
attempt (after any run of retryable failures); a failure whose message
matches no retryable substring under case-insensitive comparison, or a
failure on the final permitted attempt, re-raises that last error with no
further attempts; and the delays consumed between attempts follow
`delay = min (delay * backoffMultiplier, maxDelayMs)` starting from
`initialDelayMs`. -/
theorem withRetry_spec {α : Type} (oracle : Nat → Except String α) (opts : RetryOptions)
    (k : Nat) (v : α) (e : String)
    (hfail : ∀ j, j < k → ∃ m, oracle j = Except.error m ∧ retryableB opts m = true) :
    (k < opts.maxAttempts → oracle k = Except.ok v →
      (withRetry oracle opts).1 = Except.ok v ∧
      (withRetry oracle opts).2.1 = k + 1 ∧
      sleepsOf (withRetry oracle opts).2.2 = (List.range k).map (retryDelay opts)) ∧
    (k < opts.maxAttempts → oracle k = Except.error e → retryableB opts e = false →
      (withRetry oracle opts).1 = Except.error (some e) ∧
      (withRetry oracle opts).2.1 = k + 1 ∧
      sleepsOf (withRetry oracle opts).2.2 = (List.range k).map (retryDelay opts)) ∧
    (opts.maxAttempts = k + 1 → oracle k = Except.error e →
      (withRetry oracle opts).1 = Except.error (some e) ∧
      (withRetry oracle opts).2.1 = k + 1) := by
  have hfail' : ∀ j, j < k → ∃ m, oracle (0 + j) = Except.error m ∧
      retryableB opts m = true := by
    intro j hj
    rw [Nat.zero_add]
    exact hfail j hj
  refine ⟨?_, ?_, ?_⟩
  · intro hlt hk
    have h := withRetryGo_ok oracle opts v k opts.maxAttempts 0 opts.initialDelayMs hfail'
      hlt (by rwa [Nat.zero_add])
    exact ⟨h.1, by have := h.2.1; rwa [Nat.zero_add] at this, h.2.2⟩
  · intro hlt hk hnr
    have h := withRetryGo_fail oracle opts e k opts.maxAttempts 0 opts.initialDelayMs hfail'
      hlt (by rwa [Nat.zero_add]) (Or.inl hnr)
    exact ⟨h.1, by have := h.2.1; rwa [Nat.zero_add] at this, h.2.2⟩
  · intro hmax hk
    have h := withRetryGo_fail oracle opts e k opts.maxAttempts 0 opts.initialDelayMs hfail'
      (by omega) (by rwa [Nat.zero_add]) (Or.inr hmax)
    exact ⟨h.1, by have := h.2.1; rwa [Nat.zero_add] at this⟩

/-- Witness for C7: the timeout-then-success outcome sequence under the
default options returns the value on the second attempt after one
1000 ms backoff sleep. -/
theorem withRetry_spec_witness :
    (withRetry oracleTimeout defaultRetryOptions).1 = Except.ok 2039280 ∧
    (withRetry oracleTimeout defaultRetryOptions).2.1 = 2 ∧
    sleepsOf (withRetry oracleTimeout defaultRetryOptions).2.2 =
      (List.range 1).map (retryDelay defaultRetryOptions) :=
  (withRetry_spec oracleTimeout defaultRetryOptions 1 2039280 ""
    (fun j hj => ⟨"connection timeout", by
      have hj0 : j = 0 := by omega
      subst hj0
      exact ⟨rfl, by decide⟩⟩)).1 (by decide) rfl

/-- C6 counterexample: for a Gateway operation whose first RPC attempt
fails with a transient timeout and whose retry succeeds, the trace holds
one token acquisition but two attempts — the retried attempt does not
re-acquire a token, so tokens are not consumed per attempt. -/
theorem retry_single_token_counterexample :
    countEvent GEvent.acquire
        (getRentExemptMinimum oracleTimeout defaultRetryOptions).2.2 = 1 ∧
    (getRentExemptMinimum oracleTimeout defaultRetryOptions).2.1 = 2 ∧
    countEvent GEvent.acquire
        (getRentExemptMinimum oracleTimeout defaultRetryOptions).2.2 ≠
      (getRentExemptMinimum oracleTimeout defaultRetryOptions).2.1 := by
  decide

/-- C6 (amended): every Gateway remote operation acquires a rate-limiter
token before the network call, but the token is acquired exactly once per
logical operation — `acquire` runs outside the retry wrapper, so retried
attempts reuse the single acquisition (shown on the modelled
`getRentExemptMinimum`, whose acquire-then-retry shape is the uniform
Gateway pattern). -/
theorem gateway_acquires_once (oracle : Nat → Except String Nat) (opts : RetryOptions) :
    (getRentExemptMinimum oracle opts).2.2.head? = some GEvent.acquire ∧
    countEvent GEvent.acquire (getRentExemptMinimum oracle opts).2.2 = 1 := by
  refine ⟨rfl, ?_⟩
  show countEvent GEvent.acquire (GEvent.acquire :: (withRetry oracle opts).2.2) = 1
  have h := withRetryGo_no_acquire oracle opts opts.maxAttempts 0 opts.initialDelayMs
  simp [countEvent, withRetry] at *
  exact h

/-- Unfolding equation for the token count after a refill. -/
theorem refill_tokens (rl : RateLimiter) (now : Int) :
    (refill rl now).tokens =
      min rl.maxTokens (rl.tokens + ((now - rl.lastRefill : Int) : ℚ) / 1000 * rl.refillRate) :=
  rfl

/-- `refill` keeps the capacity. -/
theorem refill_maxTokens (rl : RateLimiter) (now : Int) :
    (refill rl now).maxTokens = rl.maxTokens := rfl

/-- `refill` keeps the refill rate. -/
theorem refill_refillRate (rl : RateLimiter) (now : Int) :
    (refill rl now).refillRate = rl.refillRate := rfl

/-- `refill` stamps the refill time. -/
theorem refill_lastRefill (rl : RateLimiter) (now : Int) :
    (refill rl now).lastRefill = now := rfl

/-- C8: `acquire` first refills lazily from elapsed wall-clock time with
the token count capped at the configured capacity; when at least one token
is then available it consumes one immediately with no suspension;
otherwise it suspends for exactly
`ceil((1 - tokens) / refillRate * 1000)` milliseconds, refills again at
the wake time and consumes one token — and with a positive refill rate and
a capacity of at least one token, the post-sleep refill has accrued at
least the one token that is consumed. -/
theorem rate_limiter_acquire_spec (rl : RateLimiter) (now : Int) :
    ((refill rl now).tokens ≤ rl.maxTokens) ∧
    (1 ≤ (refill rl now).tokens →
      acquire rl now = ({ refill rl now with tokens := (refill rl now).tokens - 1 }, none)) ∧
    ((refill rl now).tokens < 1 →
      acquire rl now =
        ({ refill (refill rl now)
              (now + ⌈(1 - (refill rl now).tokens) / rl.refillRate * 1000⌉) with
            tokens :=
              (refill (refill rl now)
                (now + ⌈(1 - (refill rl now).tokens) / rl.refillRate * 1000⌉)).tokens - 1 },
         some ⌈(1 - (refill rl now).tokens) / rl.refillRate * 1000⌉)) ∧
    (0 < rl.refillRate → 1 ≤ rl.maxTokens → (refill rl now).tokens < 1 →
      1 ≤ (refill (refill rl now)
            (now + ⌈(1 - (refill rl now).tokens) / rl.refillRate * 1000⌉)).tokens) := by
  refine ⟨min_le_left _ _, ?_, ?_, ?_⟩
  · intro h
    simp [acquire, h]
  · intro h
    simp [acquire, not_le.mpr h]
    exact ⟨⟨rfl, rfl, rfl, rfl⟩, rfl⟩
  · intro hrate hmax h
    have hw : ((1 - (refill rl now).tokens) / rl.refillRate * 1000 : ℚ) ≤
        ((⌈(1 - (refill rl now).tokens) / rl.refillRate * 1000⌉ : Int) : ℚ) :=
      Int.le_ceil _
    have h2 : (1 - (refill rl now).tokens) ≤
        ((⌈(1 - (refill rl now).tokens) / rl.refillRate * 1000⌉ : Int) : ℚ) / 1000 *
          rl.refillRate := by
      have hne : rl.refillRate ≠ 0 := ne_of_gt hrate
      have hstep : (1 - (refill rl now).tokens) * 1000 ≤
          ((⌈(1 - (refill rl now).tokens) / rl.refillRate * 1000⌉ : Int) : ℚ) *
            rl.refillRate := by
        calc (1 - (refill rl now).tokens) * 1000
            = (1 - (refill rl now).tokens) / rl.refillRate * 1000 * rl.refillRate := by
              field_simp
          _ ≤ _ := mul_le_mul_of_nonneg_right hw (le_of_lt hrate)
      have hq : ((⌈(1 - (refill rl now).tokens) / rl.refillRate * 1000⌉ : Int) : ℚ) /
          1000 * rl.refillRate =
          (((⌈(1 - (refill rl now).tokens) / rl.refillRate * 1000⌉ : Int) : ℚ) *
            rl.refillRate) / 1000 := by
        ring
      rw [hq, le_div_iff₀ (by norm_num : (0:ℚ) < 1000)]
      exact hstep
    have hsimp : (refill (refill rl now)
        (now + ⌈(1 - (refill rl now).tokens) / rl.refillRate * 1000⌉)).tokens =
        min rl.maxTokens ((refill rl now).tokens +
          ((⌈(1 - (refill rl now).tokens) / rl.refillRate * 1000⌉ : Int) : ℚ) / 1000 *
            rl.refillRate) := by
      rw [refill_tokens (refill rl now), refill_maxTokens, refill_refillRate,
        refill_lastRefill,
        show (now + ⌈(1 - (refill rl now).tokens) / rl.refillRate * 1000⌉ - now : Int) =
          ⌈(1 - (refill rl now).tokens) / rl.refillRate * 1000⌉ from by ring]
    rw [hsimp]
    refine le_min hmax ?_
    linarith

/-- Witness for C8: the immediate branch with a full bucket, and the
post-sleep sufficiency bound with an empty bucket (rate 10 tokens/s,
capacity 10). -/
theorem rate_limiter_acquire_spec_witness :
    (acquire ⟨10, 0, 10, 10⟩ 0 =
      ({ refill ⟨10, 0, 10, 10⟩ 0 with tokens := (refill ⟨10, 0, 10, 10⟩ 0).tokens - 1 },
       none)) ∧
    (1 ≤ (refill (refill ⟨0, 0, 10, 10⟩ 0)
        (0 + ⌈(1 - (refill ⟨0, 0, 10, 10⟩ 0).tokens) / (10 : ℚ) * 1000⌉)).tokens) :=
  ⟨(rate_limiter_acquire_spec ⟨10, 0, 10, 10⟩ 0).2.1 (by simp [refill]),
   (rate_limiter_acquire_spec ⟨0, 0, 10, 10⟩ 0).2.2.2 (by decide) (by decide)
     (by simp [refill])⟩

/-! Lemmas about the discovery loop. -/

/-- A fold whose step keeps the `bot_state` table keeps it overall. -/
theorem foldl_botState {β : Type} (f : (Db × Nat) → β → (Db × Nat))
    (hf : ∀ st b, (f st b).1.botState = st.1.botState) :
    ∀ (l : List β) (st : Db × Nat), (l.foldl f st).1.botState = st.1.botState := by
  intro l
  induction l with
  | nil => intro st; rfl
  | cons b l ih =>
      intro st
      rw [List.foldl_cons, ih]
      exact hf st b

/-- `processTx` never touches the `bot_state` table. -/
theorem botState_processTx (c : Chain) (feePayer : String) (now : Int)
    (st : Db × Nat) (tx : SigEntry) :
    (processTx c feePayer now st tx).1.botState = st.1.botState := by
  unfold processTx
  apply foldl_botState
  intro st' pk
  cases h : getAccount st'.1 pk with
  | some _ => simp [h]
  | none => simp [h, botState_upsertAccount]

/-- `processPage` never touches the `bot_state` table. -/
theorem botState_processPage (c : Chain) (feePayer : String) (now : Int)
    (st : Db × Nat) (txs : List SigEntry) :
    (processPage c feePayer now st txs).1.botState = st.1.botState := by
  unfold processPage
  apply foldl_botState
  intro st' tx
  exact botState_processTx c feePayer now st' tx

/-- Replacing the row of a present key is found by a lookup for that key. -/
theorem find?_replace (k v : String) :
    ∀ (l : List (String × String)), l.any (fun p => p.1 == k) = true →
      (l.map (fun p => if p.1 == k then (k, v) else p)).find? (fun p => p.1 == k) =
        some (k, v) := by
  intro l
  induction l with
  | nil => intro h; simp at h
  | cons p l ih =>
      intro h
      cases hp : (p.1 == k) with
      | true =>
          simp only [List.map_cons, hp, ite_true, List.find?_cons, beq_self_eq_true]
      | false =>
          have h' : l.any (fun p => p.1 == k) = true := by
            simpa [List.any_cons, hp] using h
          simp only [List.map_cons, hp, Bool.false_eq_true, ite_false, List.find?_cons]
          exact ih h'

/-- `setState` followed by `getState` on the same key yields the value. -/
theorem getState_setState (db : Db) (k v : String) :
    getState (setState db k v) k = some v := by
  unfold getState setState
  by_cases h : db.botState.any (fun p => p.1 == k) = true
  · simp only [h, ite_true]
    rw [find?_replace k v db.botState h]
    rfl
  · have hfalse : db.botState.any (fun p => p.1 == k) = false := by
      cases hb : db.botState.any (fun p => p.1 == k) with
      | true => exact absurd hb h
      | false => rfl
    simp only [hfalse, Bool.false_eq_true, ite_false]
    have hnone : db.botState.find? (fun p => p.1 == k) = none := by
      rw [List.find?_eq_none]
      exact List.any_eq_false.1 hfalse
    rw [List.find?_append, hnone]
    simp [List.find?_cons]

/-- The cursor read back after `setLastProcessedSignature`. -/
theorem getLastProcessedSignature_set (db : Db) (s : String) :
    getLastProcessedSignature (setLastProcessedSignature db s) = some s :=
  getState_setState db "last_processed_signature" s

/-- The page suffix after any cursor is a suffix of the history. -/
theorem sigsAfter_suffix (history : List SigEntry) (b : Option String) :
    sigsAfter history b <:+ history := by
  cases b with
  | none => exact List.suffix_rfl
  | some s => exact (List.drop_suffix 1 _).trans (List.dropWhile_suffix _)

/-- Advancing the cursor to the last signature of the current page drops
exactly the page from the remaining history (signatures are unique). -/
theorem sigsAfter_advance (history : List SigEntry)
    (hnd : (history.map (fun e => e.signature)).Nodup) (before : Option String) (n : Nat)
    (e : SigEntry) (he : ((sigsAfter history before).take n).getLast? = some e) :
    sigsAfter history (some e.signature) =
      (sigsAfter history before).drop ((sigsAfter history before).take n).length := by
  obtain ⟨pre, hpre⟩ := sigsAfter_suffix history before
  set r := sigsAfter history before with hr
  set page := r.take n with hpage
  have hne : page ≠ [] := by
    intro h0
    rw [h0] at he
    simp at he
  have hlast : page.dropLast ++ [e] = page := by
    have h2 := List.getLast?_eq_getLast page hne
    rw [he] at h2
    rw [Option.some_inj.1 h2]
    exact List.dropLast_concat_getLast hne
  have hsplit : page ++ r.drop page.length = r := by
    rcases le_or_lt n r.length with hle | hlt
    · have hl : page.length = n := by
        rw [hpage, List.length_take]
        omega
      rw [hl, hpage]
      exact List.take_append_drop n _
    · have hall : page = r := by
        rw [hpage]
        exact List.take_of_length_le (le_of_lt hlt)
      rw [hall, List.drop_length]
      simp
  have hhist : (pre ++ page.dropLast) ++ e :: r.drop page.length = history := by
    calc (pre ++ page.dropLast) ++ e :: r.drop page.length
        = pre ++ ((page.dropLast ++ [e]) ++ r.drop page.length) := by
          simp [List.append_assoc]
      _ = pre ++ (page ++ r.drop page.length) := by rw [hlast]
      _ = pre ++ r := by rw [hsplit]
      _ = history := hpre
  have hmap := congrArg (List.map (fun x => x.signature)) hhist
  simp only [List.map_append, List.map_cons] at hmap
  rw [← hmap] at hnd
  have hdisj := (List.nodup_append.1 hnd).2.2
  have hnotin : ∀ x ∈ pre ++ page.dropLast, ¬x.signature = e.signature := by
    intro x hx hxe
    have hx2 : x.signature ∈ pre.map (fun x => x.signature) ++
        page.dropLast.map (fun x => x.signature) := by
      rw [← List.map_append]
      exact List.mem_map_of_mem _ hx
    exact hdisj (hxe ▸ hx2) (List.mem_cons_self _ _)
  have hdw1 : ((pre ++ page.dropLast).dropWhile
      (fun x => !(x.signature == e.signature))) = [] := by
    rw [List.dropWhile_eq_nil_iff]
    intro x hx
    simp [hnotin x hx]
  show (history.dropWhile (fun x => !(x.signature == e.signature))).drop 1 =
    r.drop page.length
  conv_lhs => rw [← hhist]
  rw [List.dropWhile_append, hdw1]
  simp [List.dropWhile_cons]

/-- Termination invariant of the discovery loop: with the cursor stored in
`bot_state` and enough fuel, the loop ends at a cursor whose next page has
no successful transactions — re-scanning from the final stored cursor
yields an empty page. -/
theorem discoverGo_stable (c : Chain) (feePayer : String) (history : List SigEntry)
    (now : Int) (hnd : (history.map (fun e => e.signature)).Nodup)
    (hne1 : ∀ e ∈ history, e.signature ≠ "") :
    ∀ (fuel : Nat) (db : Db) (before : Option String) (count : Nat),
      jsOrNullStr (getLastProcessedSignature db) = before →
      (sigsAfter history before).length < fuel →
      (scanSponsoredTransactions history
        (jsOrNullStr (getLastProcessedSignature
          (discoverGo c feePayer history now fuel db before count).1)) 100).1 = [] := by
  intro fuel
  induction fuel with
  | zero => intro db before count hinv hlen; omega
  | succ fuel ih =>
      intro db before count hinv hlen
      by_cases hempty : (scanSponsoredTransactions history before 100).1.isEmpty = true
      · have hstop : discoverGo c feePayer history now (fuel + 1) db before count =
            (db, count) := by
          simp [discoverGo, hempty]
        rw [hstop, hinv]
        exact List.isEmpty_iff.1 hempty
      · have hempty' : (scanSponsoredTransactions history before 100).1.isEmpty = false := by
          cases hb : (scanSponsoredTransactions history before 100).1.isEmpty with
          | true => exact absurd hb hempty
          | false => rfl
        have hpage_ne : (sigsAfter history before).take 100 ≠ [] := by
          intro h0
          apply hempty
          show ((((sigsAfter history before).take 100).filter (fun e => !e.err)),
            Option.map (fun e => e.signature)
              ((sigsAfter history before).take 100).getLast?).1.isEmpty = true
          rw [h0]
          rfl
        obtain ⟨e, he⟩ : ∃ e, ((sigsAfter history before).take 100).getLast? = some e := by
          cases hgl : ((sigsAfter history before).take 100).getLast? with
          | none => exact absurd (List.getLast?_eq_none_iff.1 hgl) hpage_ne
          | some e => exact ⟨e, rfl⟩
        have hsc2 : (scanSponsoredTransactions history before 100).2 = some e.signature := by
          show Option.map (fun e => e.signature)
            ((sigsAfter history before).take 100).getLast? = some e.signature
          rw [he]
          rfl
        have hmem : e ∈ history :=
          (sigsAfter_suffix history before).sublist.subset
            (List.mem_of_mem_take (List.mem_of_mem_getLast? he))
        simp only [discoverGo, hempty', Bool.false_eq_true, ite_false, hsc2]
        apply ih
        · rw [getLastProcessedSignature_set]
          simp [jsOrNullStr, hne1 e hmem]
        · rw [sigsAfter_advance history hnd before 100 e he, List.length_drop]
          have h1 : 1 ≤ ((sigsAfter history before).take 100).length := by
            cases hp : (sigsAfter history before).take 100 with
            | nil => exact absurd hp hpage_ne
            | cons x xs => simp [hp]
          have h2 : ((sigsAfter history before).take 100).length ≤
              (sigsAfter history before).length := by
            rw [List.length_take]
            omega
          omega

/-- C9: running discovery twice over the same remote history with no
remote or local state change in between is idempotent — already-tracked
handles are skipped by the `getAccount` existence check and the second run
starts from the persisted cursor, so it inserts nothing, changes nothing
in the store, and reports zero new accounts. -/
theorem discovery_idempotent (c : Chain) (feePayer : String) (history : List SigEntry)
    (now : Int) (db : Db) (fuel : Nat)
    (hnd : (history.map (fun e => e.signature)).Nodup)
    (hne1 : ∀ e ∈ history, e.signature ≠ "")
    (hfuel : (sigsAfter history (jsOrNullStr (getLastProcessedSignature db))).length < fuel) :
    discoverNewAccounts c feePayer history now
        (discoverNewAccounts c feePayer history now db fuel).1 fuel =
      ((discoverNewAccounts c feePayer history now db fuel).1, 0) := by
  have hstable := discoverGo_stable c feePayer history now hnd hne1 fuel db
    (jsOrNullStr (getLastProcessedSignature db)) 0 rfl hfuel
  obtain ⟨f, rfl⟩ : ∃ f, fuel = f + 1 := ⟨fuel - 1, by omega⟩
  set db1 := (discoverNewAccounts c feePayer history now db (f + 1)).1 with hdb1
  have hstable' : (scanSponsoredTransactions history
      (jsOrNullStr (getLastProcessedSignature db1)) 100).1 = [] := hstable
  show discoverGo c feePayer history now (f + 1) db1
    (jsOrNullStr (getLastProcessedSignature db1)) 0 = (db1, 0)
  simp [discoverGo, hstable']

/-- Witness for C9: discovery over the two-transaction history from the
empty store, run twice. -/
theorem discovery_idempotent_witness :
    discoverNewAccounts chainGone "FEE" histW 1000000
        (discoverNewAccounts chainGone "FEE" histW 1000000 dbEmpty 3).1 3 =
      ((discoverNewAccounts chainGone "FEE" histW 1000000 dbEmpty 3).1, 0) :=
  discovery_idempotent chainGone "FEE" histW 1000000 dbEmpty 3 (by decide) (by decide)
    (by decide)

end KoraBot
